import Mathlib

/-!
# Memory Scramble board engine: a shallow embedding

This file embeds the shared-state game engine of
`src/Multiplayer_Game-master/src/board.py` (class `Board`), the complete
draft of the engine (the `src/MemoryGame` directory holds a near-duplicate
draft of the same class).  Each Python method is translated into a Lean
function over an explicit state record:

* dictionaries with list defaults (`_player_cards`, `_previous_moves`,
  `_waiting_players`) become total functions returning `[]` / `none` for
  absent keys (Python's `dict.get(k, default)` / `del` idioms make the
  absent-key and default-value states observationally identical);
* `asyncio.Event` objects become abstract `Nat` tokens; setting all the
  events of a queue and clearing it becomes clearing the token list;
* one execution of the body of the `async with self._lock:` critical
  section becomes one atomic Lean function application; the `await`
  retry loop of `flip_card` re-enters through a fresh application;
* the ghost field `notifications` counts the calls the engine makes to
  `_notify_change_watchers` (it mirrors no Python field; it only makes the
  notification events visible to theorems);
* the ghost field `nextToken` supplies fresh token identities for the
  events created by `flip_card` and `watch_for_change`.
-/

namespace MemoryScramble

/-- A cell coordinate `(row, column)`. -/
abbrev Pos := Nat × Nat

/-- The state of one `Board` object, mirroring the fields of
`Board.__init__` in `src/Multiplayer_Game-master/src/board.py`
(`_map_locks`, `_active_maps` and `_map_counter` are auxiliary lock
bookkeeping with no observable board content and are not modelled). -/
structure BoardState where
  rows : Nat
  columns : Nat
  /-- `_cards`: card value at each position, `none` once removed. -/
  cards : Pos → Option String
  /-- `_face_up`: whether the card at each position is face up. -/
  faceUp : Pos → Bool
  /-- `_controllers`: the player controlling each position, if any. -/
  controllers : Pos → Option String
  /-- `_player_cards`: the positions each player currently controls. -/
  playerCards : String → List Pos
  /-- `_previous_moves`: per player, the cells of the last completed
  move pair and whether they matched. -/
  previousMoves : String → Option (List Pos × Bool)
  /-- `_waiting_players`: tokens of the flip requests blocked on each cell. -/
  waitingPlayers : Pos → List Nat
  /-- `_change_watchers`: tokens of the pending watch requests. -/
  changeWatchers : List Nat
  /-- Ghost supply of fresh event tokens. -/
  nextToken : Nat
  /-- Ghost count of the calls made to `_notify_change_watchers`. -/
  notifications : Nat

/-- The error kinds `flip_card` can raise: `IndexError` for an
out-of-bounds coordinate, `ValueError` with a `No card`, `controlled by a
player` or `Invalid state` message otherwise. -/
inductive FlipError where
  | outOfBounds
  | noCard
  | controlled
  | invalidState
  deriving DecidableEq, Repr

/-- Outcome of one atomic attempt of `flip_card`: normal return, raised
error, or suspension on a freshly registered wait event. -/
inductive FlipOutcome where
  | ok
  | errored (e : FlipError)
  | wait (token : Nat)
  deriving DecidableEq, Repr

/-- Outcome of the `flip` wrapper, which renders the board on success. -/
inductive FlipResult where
  | ok (rendered : String)
  | errored (e : FlipError)
  | wait (token : Nat)
  deriving DecidableEq, Repr

/-- `Board._notify_waiting_players`: set every event queued on `pos` and
clear the queue (the ghost token list is simply cleared). -/
def notifyWaitingPlayers (pos : Pos) (s : BoardState) : BoardState :=
  { s with waitingPlayers := Function.update s.waitingPlayers pos [] }

/-- `Board._notify_change_watchers`: set every pending watch event and
clear the list; the ghost counter records the call. -/
def notifyChangeWatchers (s : BoardState) : BoardState :=
  { s with changeWatchers := [], notifications := s.notifications + 1 }

/-- `Board._relinquish_control`: if `player` controls `pos`, clear the
controller field and drop `pos` from the player's list (the card stays
face up). -/
def relinquishControl (player : String) (pos : Pos) (s : BoardState) : BoardState :=
  if s.controllers pos = some player then
    { s with
      controllers := Function.update s.controllers pos none,
      playerCards := Function.update s.playerCards player
        ((s.playerCards player).erase pos) }
  else s

/-- The repeated failure prologue of rules 2-A / 2-B and of the
post-cleanup existence check: relinquish the held first card, record a
size-one unmatched previous move, and notify the waiters of that cell. -/
def relinquishFirstAndRecord (player : String) (first : Pos) (s : BoardState) : BoardState :=
  let s1 := relinquishControl player first s
  let s2 := { s1 with
    previousMoves := Function.update s1.previousMoves player (some ([first], false)) }
  notifyWaitingPlayers first s2

/-- Rule 3-A, one cell: if the recorded cell is in bounds and still
occupied, remove it (empty, face down, uncontrolled), drop it from the
player's list, and notify its waiters and the change watchers. -/
def removeMatchedCell (player : String) (s : BoardState) (p : Pos) : BoardState :=
  if p.1 < s.rows ∧ p.2 < s.columns ∧ s.cards p ≠ none then
    notifyChangeWatchers (notifyWaitingPlayers p
      { s with
        cards := Function.update s.cards p none,
        faceUp := Function.update s.faceUp p false,
        controllers := Function.update s.controllers p none,
        playerCards := Function.update s.playerCards player
          ((s.playerCards player).erase p) })
  else s

/-- Rule 3-B, one cell: if the recorded cell is in bounds, occupied,
face up and uncontrolled, turn it face down and notify its waiters and
the change watchers. -/
def turnDownCell (s : BoardState) (p : Pos) : BoardState :=
  if p.1 < s.rows ∧ p.2 < s.columns ∧ s.cards p ≠ none ∧ s.faceUp p = true ∧
      s.controllers p = none then
    notifyChangeWatchers (notifyWaitingPlayers p
      { s with faceUp := Function.update s.faceUp p false })
  else s

/-- The cleanup block at the top of `flip_card` (rules 3-A / 3-B): apply
the player's previous-move record, then clear it. -/
def cleanupPreviousMove (player : String) (s : BoardState) : BoardState :=
  match s.previousMoves player with
  | none => s
  | some (prevCards, matched) =>
    let s1 := if matched then prevCards.foldl (removeMatchedCell player) s
              else prevCards.foldl turnDownCell s
    { s1 with previousMoves := Function.update s1.previousMoves player none }

/-- The first-card case of `flip_card` (rules 1-B / 1-C / 1-D), reached
with the target known to be occupied.  Rule 1-D registers a fresh wait
event; otherwise the card is taken (with a change notification only when
it actually turns face up) and the previous-move record is cleared. -/
def flipFirstCard (player : String) (p : Pos) (s : BoardState) : BoardState × FlipOutcome :=
  if s.controllers p ≠ none ∧ s.controllers p ≠ some player then
    ({ s with
        waitingPlayers := Function.update s.waitingPlayers p
          (s.waitingPlayers p ++ [s.nextToken]),
        nextToken := s.nextToken + 1 }, .wait s.nextToken)
  else
    let s1 :=
      if s.faceUp p = false then
        notifyChangeWatchers (notifyWaitingPlayers p
          { s with
            faceUp := Function.update s.faceUp p true,
            controllers := Function.update s.controllers p (some player),
            playerCards := Function.update s.playerCards player
              (s.playerCards player ++ [p]) })
      else if s.controllers p = none then
        notifyWaitingPlayers p
          { s with
            controllers := Function.update s.controllers p (some player),
            playerCards := Function.update s.playerCards player
              (s.playerCards player ++ [p]) }
      else s
    ({ s1 with previousMoves := Function.update s1.previousMoves player none }, .ok)

/-- The second-card case of `flip_card` (rules 2-A ... 2-E), with `first`
the single held cell. -/
def flipSecondCard (player : String) (first p : Pos) (s : BoardState) :
    BoardState × FlipOutcome :=
  if s.cards p = none then
    (relinquishFirstAndRecord player first s, .errored .noCard)
  else if s.faceUp p = true ∧ s.controllers p ≠ none then
    (relinquishFirstAndRecord player first s, .errored .controlled)
  else
    let s1 :=
      if s.faceUp p = false then
        notifyChangeWatchers (notifyWaitingPlayers p
          { s with faceUp := Function.update s.faceUp p true })
      else s
    if s1.cards first = s1.cards p then
      let s2 := { s1 with
        controllers := Function.update s1.controllers p (some player),
        playerCards := Function.update s1.playerCards player
          (s1.playerCards player ++ [p]),
        previousMoves := Function.update s1.previousMoves player
          (some ([first, p], true)) }
      (notifyWaitingPlayers p s2, .ok)
    else
      let s2 := relinquishControl player p (relinquishControl player first s1)
      let s3 := { s2 with
        previousMoves := Function.update s2.previousMoves player
          (some ([first, p], false)) }
      (notifyWaitingPlayers p (notifyWaitingPlayers first s3), .ok)

/-- The body of `flip_card` after the cleanup block: the existence check
(which relinquishes a held first card before failing), then the dispatch
on how many cells the player controls. -/
def flipEval (player : String) (p : Pos) (s : BoardState) : BoardState × FlipOutcome :=
  if s.cards p = none ∧ (s.playerCards player).length ≤ 1 then
    match s.playerCards player with
    | [] => (s, .errored .noCard)
    | first :: _ => (relinquishFirstAndRecord player first s, .errored .noCard)
  else
    match s.playerCards player with
    | [] => flipFirstCard player p s
    | [first] => flipSecondCard player first p s
    | _ => (s, .errored .invalidState)

/-- One atomic attempt of `Board.flip_card(player, row, column)`: the
bounds check raises `IndexError` before anything else; then cleanup, then
the evaluation of the target cell. -/
def flipCardAttempt (player : String) (row col : Int) (s : BoardState) :
    BoardState × FlipOutcome :=
  if 0 ≤ row ∧ row < (s.rows : Int) ∧ 0 ≤ col ∧ col < (s.columns : Int) then
    flipEval player (row.toNat, col.toNat) (cleanupPreviousMove player s)
  else (s, .errored .outOfBounds)

/-- The SPOT line `get_board_state` emits for one cell. -/
def spot (player : String) (s : BoardState) (p : Pos) : String :=
  match s.cards p with
  | none => "none"
  | some v =>
    if s.faceUp p = false then "down"
    else if s.controllers p = some player then "my " ++ v
    else "up " ++ v

/-- The cell lines of `get_board_state`, in row-major order. -/
def boardStateLines (player : String) (s : BoardState) : List String :=
  (List.range s.rows).flatMap fun r =>
    (List.range s.columns).map fun c => spot player s (r, c)

/-- `Board.get_board_state`: the dimension header line, then one SPOT
line per cell in row-major order, every line terminated by a newline. -/
def get_board_state (player : String) (s : BoardState) : String :=
  String.intercalate "\n"
    ((toString s.rows ++ "x" ++ toString s.columns) :: boardStateLines player s) ++ "\n"

/-- `Board.flip`: one `flip_card` attempt followed by a render of the
resulting state on success. -/
def flip (player : String) (row col : Int) (s : BoardState) : BoardState × FlipResult :=
  match flipCardAttempt player row col s with
  | (s1, .ok) => (s1, .ok (get_board_state player s1))
  | (s1, .errored e) => (s1, .errored e)
  | (s1, .wait t) => (s1, .wait t)

/-- `Board.look`: a pure render of the current state. -/
def look (player : String) (s : BoardState) : String :=
  get_board_state player s

/-- The registration half of `Board.watch_for_change`: append a fresh
watch event to `_change_watchers` (the suspension happens outside the
critical section; the token is returned for bookkeeping). -/
def watchRegister (s : BoardState) : BoardState × Nat :=
  ({ s with changeWatchers := s.changeWatchers ++ [s.nextToken],
            nextToken := s.nextToken + 1 }, s.nextToken)

/-- Append `p` to the group of value `v`, creating the group at the end
on first sight of `v` — Python dict insertion-order semantics. -/
def addToGroup : List (String × List Pos) → String → Pos → List (String × List Pos)
  | [], v, p => [(v, [p])]
  | (w, ps) :: rest, v, p =>
    if w = v then (w, ps ++ [p]) :: rest
    else (w, ps) :: addToGroup rest v p

/-- All positions of the grid in row-major order. -/
def allPositions (s : BoardState) : List Pos :=
  (List.range s.rows).flatMap fun r => (List.range s.columns).map fun c => (r, c)

/-- One iteration of the snapshot loop of `map_cards`: file an occupied
position under its value, skip an empty one. -/
def snapshotStep (s : BoardState) (acc : List (String × List Pos)) (p : Pos) :
    List (String × List Pos) :=
  match s.cards p with
  | none => acc
  | some v => addToGroup acc v p

/-- The snapshot phase of `map_cards`: group every occupied position
under its current card value, preserving first-occurrence order. -/
def snapshotGroups (s : BoardState) : List (String × List Pos) :=
  (allPositions s).foldl (snapshotStep s) []

/-- One iteration of the write-back loop of `map_cards`: rewrite `p` if
it is in bounds and still holds the original value `v`. -/
def writeBackStep (v newV : String) (acc : BoardState × Bool) (p : Pos) :
    BoardState × Bool :=
  if p.1 < acc.1.rows ∧ p.2 < acc.1.columns ∧ acc.1.cards p = some v then
    ({ acc.1 with cards := Function.update acc.1.cards p (some newV) }, true)
  else acc

/-- The write-back loop of `map_cards` for one value group: rewrite every
listed position that still holds the original value, tracking whether any
card actually changed. -/
def writeBack (v newV : String) (s : BoardState) (ps : List Pos) : BoardState × Bool :=
  ps.foldl (writeBackStep v newV) (s, false)

/-- Processing one value group of `map_cards`: compute `f` on the value
once, write it back under the board lock, and notify the change watchers
if some card changed to a different value. -/
def processGroup (f : String → String) (s : BoardState) (g : String × List Pos) :
    BoardState :=
  let newV := f g.1
  let r := writeBack g.1 newV s g.2
  if r.2 = true ∧ newV ≠ g.1 then notifyChangeWatchers r.1 else r.1

/-- `Board.map_cards` as one sequential execution: snapshot the value
groups, then process each group in order. -/
def map_cards (f : String → String) (s : BoardState) : BoardState :=
  (snapshotGroups s).foldl (processGroup f) s

/-- `Board.map`: `map_cards` followed by a render. -/
def map_board (player : String) (f : String → String) (s : BoardState) :
    BoardState × String :=
  let s1 := map_cards f s
  (s1, get_board_state player s1)

/-- `Board.__init__(rows, columns, cards)`: the constructor's validation
and initial state.  It checks that the dimensions are positive, that the
row count matches `rows`, and that every row has length `columns`; card
values themselves are not inspected. -/
def boardInit (rows columns : Int) (cards : List (List String)) :
    Except String BoardState :=
  if rows ≤ 0 ∨ columns ≤ 0 then
    .error "Board dimensions must be positive"
  else if (cards.length : Int) ≠ rows then
    .error "row count mismatch"
  else if cards.any (fun row => (row.length : Int) ≠ columns) then
    .error "row length mismatch"
  else
    .ok { rows := rows.toNat
          columns := columns.toNat
          cards := fun p => (cards.get? p.1).bind fun row => row.get? p.2
          faceUp := fun _ => false
          controllers := fun _ => none
          playerCards := fun _ => []
          previousMoves := fun _ => none
          waitingPlayers := fun _ => []
          changeWatchers := []
          nextToken := 0
          notifications := 0 }

/-- One atomic critical section of any engine operation: a `flip_card`
attempt, a `look`, a `watch` registration, the write-back of one `map`
value group, or a whole uninterleaved `map_cards` call. -/
inductive EngineStep : BoardState → BoardState → Prop where
  | flipStep (player : String) (row col : Int) (s : BoardState) :
      EngineStep s (flipCardAttempt player row col s).1
  | lookStep (s : BoardState) : EngineStep s s
  | watchStep (s : BoardState) : EngineStep s (watchRegister s).1
  | mapGroupStep (f : String → String) (g : String × List Pos) (s : BoardState) :
      EngineStep s (processGroup f s g)
  | mapStep (f : String → String) (s : BoardState) :
      EngineStep s (map_cards f s)

/-- The grid invariant of `check_rep`: a controlled cell is face up, and
an empty cell is face down and uncontrolled. -/
def GridInv (s : BoardState) : Prop :=
  ∀ p : Pos, p.1 < s.rows → p.2 < s.columns →
    (s.controllers p ≠ none → s.faceUp p = true) ∧
    (s.cards p = none → s.faceUp p = false ∧ s.controllers p = none)

/-- The interleaving of one in-flight `map_cards(f)` call with concurrent
`flip` and `watch` traffic: the board plus the suffix of value groups not
yet written back; either a full engine critical section runs, or the map
call writes back its next group. -/
inductive MapRunStep (f : String → String) :
    BoardState × List (String × List Pos) → BoardState × List (String × List Pos) → Prop where
  | flipStep (player : String) (row col : Int) (b : BoardState)
      (gs : List (String × List Pos)) :
      MapRunStep f (b, gs) ((flipCardAttempt player row col b).1, gs)
  | watchStep (b : BoardState) (gs : List (String × List Pos)) :
      MapRunStep f (b, gs) ((watchRegister b).1, gs)
  | groupStep (b : BoardState) (g : String × List Pos)
      (gs : List (String × List Pos)) :
      MapRunStep f (b, g :: gs) (processGroup f b g, gs)

/-! ## Sample states for concrete evaluation -/

/-- A fresh 1×2 board holding two matching cards `A`, as built by
`boardInit`. -/
def sampleBoard : BoardState where
  rows := 1
  columns := 2
  cards := fun p => if p = ((0 : Nat), (0 : Nat)) then some "A"
    else if p = ((0 : Nat), (1 : Nat)) then some "A" else none
  faceUp := fun _ => false
  controllers := fun _ => none
  playerCards := fun _ => []
  previousMoves := fun _ => none
  waitingPlayers := fun _ => []
  changeWatchers := []
  nextToken := 0
  notifications := 0

/-! ## Frame lemmas for the helpers -/

theorem notifyWaitingPlayers_frame (pos : Pos) (s : BoardState) :
    (notifyWaitingPlayers pos s).rows = s.rows ∧
    (notifyWaitingPlayers pos s).columns = s.columns ∧
    (notifyWaitingPlayers pos s).cards = s.cards ∧
    (notifyWaitingPlayers pos s).faceUp = s.faceUp ∧
    (notifyWaitingPlayers pos s).controllers = s.controllers ∧
    (notifyWaitingPlayers pos s).playerCards = s.playerCards ∧
    (notifyWaitingPlayers pos s).previousMoves = s.previousMoves ∧
    (notifyWaitingPlayers pos s).changeWatchers = s.changeWatchers :=
  ⟨rfl, rfl, rfl, rfl, rfl, rfl, rfl, rfl⟩

theorem notifyChangeWatchers_frame (s : BoardState) :
    (notifyChangeWatchers s).rows = s.rows ∧
    (notifyChangeWatchers s).columns = s.columns ∧
    (notifyChangeWatchers s).cards = s.cards ∧
    (notifyChangeWatchers s).faceUp = s.faceUp ∧
    (notifyChangeWatchers s).controllers = s.controllers ∧
    (notifyChangeWatchers s).playerCards = s.playerCards ∧
    (notifyChangeWatchers s).previousMoves = s.previousMoves ∧
    (notifyChangeWatchers s).waitingPlayers = s.waitingPlayers :=
  ⟨rfl, rfl, rfl, rfl, rfl, rfl, rfl, rfl⟩

/-- Everything except `cards`, `changeWatchers`, `nextToken` and the
ghost counter agrees between `s` and `t`. -/
def SameNonCards (s t : BoardState) : Prop :=
  t.rows = s.rows ∧ t.columns = s.columns ∧ t.faceUp = s.faceUp ∧
  t.controllers = s.controllers ∧ t.playerCards = s.playerCards ∧
  t.previousMoves = s.previousMoves ∧ t.waitingPlayers = s.waitingPlayers

theorem sameNonCards_refl (s : BoardState) : SameNonCards s s :=
  ⟨rfl, rfl, rfl, rfl, rfl, rfl, rfl⟩

theorem sameNonCards_trans {s t u : BoardState} (h1 : SameNonCards s t)
    (h2 : SameNonCards t u) : SameNonCards s u := by
  obtain ⟨a1, a2, a3, a4, a5, a6, a7⟩ := h1
  obtain ⟨b1, b2, b3, b4, b5, b6, b7⟩ := h2
  exact ⟨b1.trans a1, b2.trans a2, b3.trans a3, b4.trans a4, b5.trans a5,
    b6.trans a6, b7.trans a7⟩

theorem writeBackStep_sameNonCards (v newV : String) (acc : BoardState × Bool)
    (p : Pos) : SameNonCards acc.1 (writeBackStep v newV acc p).1 := by
  unfold writeBackStep
  split
  · exact ⟨rfl, rfl, rfl, rfl, rfl, rfl, rfl⟩
  · exact sameNonCards_refl _

theorem writeBack_foldl_sameNonCards (v newV : String) (ps : List Pos) :
    ∀ acc : BoardState × Bool,
      SameNonCards acc.1 (ps.foldl (writeBackStep v newV) acc).1 := by
  induction ps with
  | nil => intro acc; exact sameNonCards_refl _
  | cons p ps ih =>
    intro acc
    exact sameNonCards_trans (writeBackStep_sameNonCards v newV acc p)
      (ih (writeBackStep v newV acc p))

theorem writeBack_sameNonCards (v newV : String) (s : BoardState) (ps : List Pos) :
    SameNonCards s (writeBack v newV s ps).1 :=
  writeBack_foldl_sameNonCards v newV ps (s, false)

theorem processGroup_sameNonCards (f : String → String) (s : BoardState)
    (g : String × List Pos) : SameNonCards s (processGroup f s g) := by
  show SameNonCards s
    (if (writeBack g.1 (f g.1) s g.2).2 = true ∧ f g.1 ≠ g.1 then
      notifyChangeWatchers (writeBack g.1 (f g.1) s g.2).1
    else (writeBack g.1 (f g.1) s g.2).1)
  split
  · exact sameNonCards_trans (writeBack_sameNonCards g.1 (f g.1) s g.2)
      ⟨rfl, rfl, rfl, rfl, rfl, rfl, rfl⟩
  · exact writeBack_sameNonCards g.1 (f g.1) s g.2

theorem map_foldl_sameNonCards (f : String → String)
    (gs : List (String × List Pos)) :
    ∀ s : BoardState, SameNonCards s (gs.foldl (processGroup f) s) := by
  induction gs with
  | nil => intro s; exact sameNonCards_refl _
  | cons g gs ih =>
    intro s
    exact sameNonCards_trans (processGroup_sameNonCards f s g)
      (ih (processGroup f s g))

theorem map_cards_sameNonCards (f : String → String) (s : BoardState) :
    SameNonCards s (map_cards f s) :=
  map_foldl_sameNonCards f (snapshotGroups s) s

/-! ## Claim C7 -/

/-- C7 (confirmed): the frame property of `map`.  `map_cards` modifies
only cell card values: every face flag, every controller field, every
ownership list, every pending-move record (and every wait queue and the
grid dimensions) is identical before and after the call, and likewise
across each individual value-group write-back of an interleaved call. -/
theorem map_frame_only_values (f : String → String) (s : BoardState) :
    (map_cards f s).faceUp = s.faceUp ∧
    (map_cards f s).controllers = s.controllers ∧
    (map_cards f s).playerCards = s.playerCards ∧
    (map_cards f s).previousMoves = s.previousMoves ∧
    (map_cards f s).waitingPlayers = s.waitingPlayers ∧
    (map_cards f s).rows = s.rows ∧
    (map_cards f s).columns = s.columns ∧
    ∀ g : String × List Pos,
      (processGroup f s g).faceUp = s.faceUp ∧
      (processGroup f s g).controllers = s.controllers ∧
      (processGroup f s g).playerCards = s.playerCards ∧
      (processGroup f s g).previousMoves = s.previousMoves ∧
      (processGroup f s g).waitingPlayers = s.waitingPlayers := by
  obtain ⟨a1, a2, a3, a4, a5, a6, a7⟩ := map_cards_sameNonCards f s
  refine ⟨a3, a4, a5, a6, a7, a1, a2, ?_⟩
  intro g
  obtain ⟨b1, b2, b3, b4, b5, b6, b7⟩ := processGroup_sameNonCards f s g
  exact ⟨b3, b4, b5, b6, b7⟩

/-! ## Claim C4 -/

/-- C4 (confirmed): an out-of-bounds flip fails with the out-of-bounds
error and returns the state unchanged — no lazy cleanup, no wait-queue or
watcher activity, nothing: the bounds check precedes everything else in
`flip_card`. -/
theorem flip_out_of_bounds_unchanged (player : String) (row col : Int)
    (s : BoardState)
    (h : ¬ (0 ≤ row ∧ row < (s.rows : Int) ∧ 0 ≤ col ∧ col < (s.columns : Int))) :
    flipCardAttempt player row col s = (s, .errored .outOfBounds) ∧
    flip player row col s = (s, .errored .outOfBounds) := by
  have h1 : flipCardAttempt player row col s = (s, .errored .outOfBounds) := by
    unfold flipCardAttempt
    exact if_neg h
  refine ⟨h1, ?_⟩
  unfold flip
  rw [h1]

/-- Witness for C4: flipping at row 5 of a 1×2 board (and at column −1)
fails without touching the state. -/
theorem flip_out_of_bounds_unchanged_witness :
    (flipCardAttempt "p1" 5 0 sampleBoard =
      (sampleBoard, .errored .outOfBounds) ∧
     flip "p1" 5 0 sampleBoard = (sampleBoard, .errored .outOfBounds)) ∧
    (flipCardAttempt "p1" 0 (-1) sampleBoard =
      (sampleBoard, .errored .outOfBounds) ∧
     flip "p1" 0 (-1) sampleBoard = (sampleBoard, .errored .outOfBounds)) :=
  ⟨flip_out_of_bounds_unchanged "p1" 5 0 sampleBoard (by decide),
   flip_out_of_bounds_unchanged "p1" 0 (-1) sampleBoard (by decide)⟩

/-! ## Evaluation lemmas for flip -/

theorem cleanupPreviousMove_of_none (player : String) (s : BoardState)
    (h : s.previousMoves player = none) : cleanupPreviousMove player s = s := by
  unfold cleanupPreviousMove
  rw [h]

theorem flipCardAttempt_inBounds (player : String) (p : Pos) (s : BoardState)
    (h1 : p.1 < s.rows) (h2 : p.2 < s.columns) :
    flipCardAttempt player p.1 p.2 s =
      flipEval player p (cleanupPreviousMove player s) := by
  unfold flipCardAttempt
  rw [if_pos ⟨Int.ofNat_nonneg p.1, by exact_mod_cast h1,
    Int.ofNat_nonneg p.2, by exact_mod_cast h2⟩]
  rw [Int.toNat_natCast, Int.toNat_natCast, Prod.mk.eta]

theorem flipEval_secondCard (player : String) (first p : Pos) (s : BoardState)
    (hpc : s.playerCards player = [first]) (hc : s.cards p ≠ none) :
    flipEval player p s = flipSecondCard player first p s := by
  unfold flipEval
  rw [hpc, if_neg (fun h => hc h.1)]

theorem flipEval_firstCard (player : String) (p : Pos) (s : BoardState)
    (hpc : s.playerCards player = []) (hc : s.cards p ≠ none) :
    flipEval player p s = flipFirstCard player p s := by
  unfold flipEval
  rw [hpc, if_neg (fun h => hc h.1)]

/-- Evaluation of the 2-E (values differ) branch of the second-card
flip: both cells end uncontrolled and face up, an unmatched pending move
of both cells is recorded, and the waiters of both cells are woken. -/
theorem flipSecondCard_nonmatching (player : String) (first p : Pos)
    (v1 v2 : String) (s : BoardState)
    (hc1 : s.cards first = some v1) (hc2 : s.cards p = some v2) (hne : v1 ≠ v2)
    (hctl : s.controllers first = some player) (hctlp : s.controllers p = none)
    (hpc : s.playerCards player = [first]) :
    (flipSecondCard player first p s).2 = .ok ∧
    (flipSecondCard player first p s).1.cards = s.cards ∧
    (flipSecondCard player first p s).1.controllers first = none ∧
    (flipSecondCard player first p s).1.controllers p = none ∧
    (flipSecondCard player first p s).1.faceUp first = s.faceUp first ∧
    (flipSecondCard player first p s).1.faceUp p = true ∧
    (flipSecondCard player first p s).1.previousMoves player =
      some ([first, p], false) ∧
    (flipSecondCard player first p s).1.playerCards player = [] ∧
    (flipSecondCard player first p s).1.rows = s.rows ∧
    (flipSecondCard player first p s).1.columns = s.columns := by
  have hpf : p ≠ first := by
    intro h
    rw [h, hctl] at hctlp
    cases hctlp
  have hfp : first ≠ p := Ne.symm hpf
  have hcne : s.cards p ≠ none := by rw [hc2]; simp
  unfold flipSecondCard
  rw [if_neg hcne, hctlp, if_neg (by simp)]
  by_cases hf : s.faceUp p = false
  · rw [if_pos hf]
    refine ⟨?_, ?_, ?_, ?_, ?_, ?_, ?_, ?_, ?_, ?_⟩ <;>
      simp [notifyWaitingPlayers, notifyChangeWatchers, relinquishControl,
        hc1, hc2, hne, hctl, hctlp, hpc, Function.update_same,
        Function.update_noteq hpf, Function.update_noteq hfp]
  · have hft : s.faceUp p = true := by revert hf; cases s.faceUp p <;> simp
    rw [if_neg hf]
    refine ⟨?_, ?_, ?_, ?_, ?_, ?_, ?_, ?_, ?_, ?_⟩ <;>
      simp [notifyWaitingPlayers, notifyChangeWatchers, relinquishControl,
        hc1, hc2, hne, hctl, hctlp, hpc, hft, Function.update_same,
        Function.update_noteq hpf, Function.update_noteq hfp]

theorem flip_of_ok (player : String) (row col : Int) (s : BoardState)
    (h : (flipCardAttempt player row col s).2 = .ok) :
    flip player row col s = ((flipCardAttempt player row col s).1,
      .ok (get_board_state player (flipCardAttempt player row col s).1)) := by
  unfold flip
  rcases hE : flipCardAttempt player row col s with ⟨t, o⟩
  rw [hE] at h
  simp only at h
  rw [h]

/-- A 1×2 board mid-game: `p1` controls the face-up `A` at `(0,0)`, the
`B` at `(0,1)` is face down, no pending move. -/
def sampleMidBoard : BoardState where
  rows := 1
  columns := 2
  cards := fun q => if q = ((0 : Nat), (0 : Nat)) then some "A"
    else if q = ((0 : Nat), (1 : Nat)) then some "B" else none
  faceUp := fun q => decide (q = ((0 : Nat), (0 : Nat)))
  controllers := fun q => if q = ((0 : Nat), (0 : Nat)) then some "p1" else none
  playerCards := fun q => if q = "p1" then [((0 : Nat), (0 : Nat))] else []
  previousMoves := fun _ => none
  waitingPlayers := fun _ => []
  changeWatchers := []
  nextToken := 0
  notifications := 0

theorem sampleMidBoard_inv : GridInv sampleMidBoard := by
  intro p h1 h2
  obtain ⟨a, b⟩ := p
  simp only [sampleMidBoard] at h1 h2 ⊢
  interval_cases a
  interval_cases b <;> simp

/-! ## Claim C3 -/

/-- C3 (confirmed): a successful second flip onto a card whose value
differs from the held first card relinquishes control of both cells,
leaves both face up, records an unmatched pending move holding exactly
those two cells, and returns the rendered board state. -/
theorem flip_second_nonmatching (player : String) (first p : Pos)
    (v1 v2 : String) (s : BoardState) (hinv : GridInv s)
    (hprev : s.previousMoves player = none)
    (hpc : s.playerCards player = [first])
    (hctl : s.controllers first = some player)
    (hfb : first.1 < s.rows ∧ first.2 < s.columns)
    (hpb : p.1 < s.rows ∧ p.2 < s.columns)
    (hc1 : s.cards first = some v1) (hc2 : s.cards p = some v2) (hne : v1 ≠ v2)
    (hfree : ¬ (s.faceUp p = true ∧ s.controllers p ≠ none)) :
    flip player p.1 p.2 s = ((flipCardAttempt player p.1 p.2 s).1,
      .ok (get_board_state player (flipCardAttempt player p.1 p.2 s).1)) ∧
    (flipCardAttempt player p.1 p.2 s).1.controllers first = none ∧
    (flipCardAttempt player p.1 p.2 s).1.controllers p = none ∧
    (flipCardAttempt player p.1 p.2 s).1.faceUp first = true ∧
    (flipCardAttempt player p.1 p.2 s).1.faceUp p = true ∧
    (flipCardAttempt player p.1 p.2 s).1.previousMoves player =
      some ([first, p], false) ∧
    (flipCardAttempt player p.1 p.2 s).1.playerCards player = [] ∧
    (flipCardAttempt player p.1 p.2 s).1.cards = s.cards := by
  have hctlp : s.controllers p = none := by
    by_cases hup : s.faceUp p = true
    · push_neg at hfree
      exact hfree hup
    · have hdown : s.faceUp p = false := by
        revert hup; cases s.faceUp p <;> simp
      by_contra hcp
      have := (hinv p hpb.1 hpb.2).1 hcp
      rw [this] at hdown
      cases hdown
  have hfup : s.faceUp first = true :=
    (hinv first hfb.1 hfb.2).1 (by rw [hctl]; simp)
  have e : flipCardAttempt player p.1 p.2 s = flipSecondCard player first p s := by
    rw [flipCardAttempt_inBounds player p s hpb.1 hpb.2,
        cleanupPreviousMove_of_none player s hprev,
        flipEval_secondCard player first p (s := s) hpc (by rw [hc2]; simp)]
  obtain ⟨h1, h2, h3, h4, h5, h6, h7, h8, _, _⟩ :=
    flipSecondCard_nonmatching player first p v1 v2 s hc1 hc2 hne hctl hctlp hpc
  rw [e]
  exact ⟨by rw [← e]; exact flip_of_ok player p.1 p.2 s (by rw [e]; exact h1),
    h3, h4, by rw [h5, hfup], h6, h7, h8, h2⟩

/-- Witness for C3: on `sampleMidBoard`, `p1` flips the face-down `B` at
`(0,1)` while holding the `A` at `(0,0)`: control of both is gone, both
are face up, and the unmatched pair is recorded. -/
theorem flip_second_nonmatching_witness :
    (flipCardAttempt "p1" 0 1 sampleMidBoard).1.controllers (0, 0) = none ∧
    (flipCardAttempt "p1" 0 1 sampleMidBoard).1.controllers (0, 1) = none ∧
    (flipCardAttempt "p1" 0 1 sampleMidBoard).1.faceUp (0, 0) = true ∧
    (flipCardAttempt "p1" 0 1 sampleMidBoard).1.faceUp (0, 1) = true ∧
    (flipCardAttempt "p1" 0 1 sampleMidBoard).1.previousMoves "p1" =
      some ([(0, 0), (0, 1)], false) := by
  have h := flip_second_nonmatching "p1" (0, 0) (0, 1) "A" "B" sampleMidBoard
    sampleMidBoard_inv rfl (by decide) (by decide)
    ⟨by decide, by decide⟩ ⟨by decide, by decide⟩
    (by decide) (by decide) (by decide) (by decide)
  exact ⟨h.2.1, h.2.2.1, h.2.2.2.1, h.2.2.2.2.1, h.2.2.2.2.2.1⟩

theorem flip_of_errored (player : String) (row col : Int) (s : BoardState)
    (e : FlipError) (h : (flipCardAttempt player row col s).2 = .errored e) :
    flip player row col s = ((flipCardAttempt player row col s).1, .errored e) := by
  unfold flip
  rcases hE : flipCardAttempt player row col s with ⟨t, o⟩
  rw [hE] at h
  simp only at h
  rw [h]

/-- Evaluation of the rule 2-B branch: a second flip onto a face-up
controlled card fails with the controlled error after the
relinquish-and-record prologue. -/
theorem flipSecondCard_controlled (player : String) (first p : Pos) (q : String)
    (s : BoardState) (hc : s.cards p ≠ none) (hup : s.faceUp p = true)
    (hq : s.controllers p = some q) :
    flipSecondCard player first p s =
      (relinquishFirstAndRecord player first s, .errored .controlled) := by
  unfold flipSecondCard
  rw [if_neg hc, if_pos ⟨hup, by rw [hq]; simp⟩]

/-- The observable effect of the relinquish-and-record prologue on the
held first cell. -/
theorem relinquishFirstAndRecord_fields (player : String) (first : Pos)
    (s : BoardState) (hctl : s.controllers first = some player)
    (hpc : s.playerCards player = [first]) :
    (relinquishFirstAndRecord player first s).controllers first = none ∧
    (relinquishFirstAndRecord player first s).faceUp = s.faceUp ∧
    (relinquishFirstAndRecord player first s).cards = s.cards ∧
    (relinquishFirstAndRecord player first s).previousMoves player =
      some ([first], false) ∧
    (relinquishFirstAndRecord player first s).playerCards player = [] ∧
    (relinquishFirstAndRecord player first s).waitingPlayers first = [] ∧
    (relinquishFirstAndRecord player first s).changeWatchers = s.changeWatchers ∧
    (relinquishFirstAndRecord player first s).notifications = s.notifications := by
  refine ⟨?_, ?_, ?_, ?_, ?_, ?_, ?_, ?_⟩ <;>
    simp [relinquishFirstAndRecord, relinquishControl, notifyWaitingPlayers,
      hctl, hpc, Function.update_same]

/-! ## Claim C5 -/

/-- C5 (confirmed): while holding exactly one card, a flip targeting a
face-up cell controlled by anyone — the flipping player included — fails
with the controlled-card error after relinquishing the first card (which
stays face up and uncontrolled) and recording a size-one unmatched
pending move; the call returns the error rather than blocking, and no
change watcher is woken. -/
theorem flip_second_controlled_fails (player : String) (first p : Pos)
    (q v : String) (s : BoardState) (hinv : GridInv s)
    (hprev : s.previousMoves player = none)
    (hpc : s.playerCards player = [first])
    (hctl : s.controllers first = some player)
    (hfb : first.1 < s.rows ∧ first.2 < s.columns)
    (hpb : p.1 < s.rows ∧ p.2 < s.columns)
    (hc : s.cards p = some v) (hup : s.faceUp p = true)
    (hq : s.controllers p = some q) :
    flipCardAttempt player p.1 p.2 s =
      (relinquishFirstAndRecord player first s, .errored .controlled) ∧
    flip player p.1 p.2 s =
      (relinquishFirstAndRecord player first s, .errored .controlled) ∧
    (relinquishFirstAndRecord player first s).controllers first = none ∧
    (relinquishFirstAndRecord player first s).faceUp first = true ∧
    (relinquishFirstAndRecord player first s).faceUp = s.faceUp ∧
    (relinquishFirstAndRecord player first s).cards = s.cards ∧
    (relinquishFirstAndRecord player first s).previousMoves player =
      some ([first], false) ∧
    (relinquishFirstAndRecord player first s).playerCards player = [] ∧
    (relinquishFirstAndRecord player first s).changeWatchers = s.changeWatchers := by
  have hfup : s.faceUp first = true :=
    (hinv first hfb.1 hfb.2).1 (by rw [hctl]; simp)
  have e : flipCardAttempt player p.1 p.2 s =
      (relinquishFirstAndRecord player first s, .errored .controlled) := by
    rw [flipCardAttempt_inBounds player p s hpb.1 hpb.2,
        cleanupPreviousMove_of_none player s hprev,
        flipEval_secondCard player first p (s := s) hpc (by rw [hc]; simp),
        flipSecondCard_controlled player first p q s (by rw [hc]; simp) hup hq]
  obtain ⟨g1, g2, g3, g4, g5, g6, g7, g8⟩ :=
    relinquishFirstAndRecord_fields player first s hctl hpc
  exact ⟨e, by rw [flip_of_errored player p.1 p.2 s .controlled (by rw [e]), e],
    g1, by rw [g2, hfup], g2, g3, g4, g5, g7⟩

/-- Witness for C5: on `sampleMidBoard`, `p1` holds `(0,0)` and flips
`(0,0)` itself — face up and controlled by `p1` —, hitting the
controlled-card failure with the relinquish side effect. -/
theorem flip_second_controlled_fails_witness :
    flipCardAttempt "p1" 0 0 sampleMidBoard =
      (relinquishFirstAndRecord "p1" (0, 0) sampleMidBoard,
        .errored .controlled) ∧
    (relinquishFirstAndRecord "p1" (0, 0) sampleMidBoard).controllers (0, 0) =
      none ∧
    (relinquishFirstAndRecord "p1" (0, 0) sampleMidBoard).previousMoves "p1" =
      some ([(0, 0)], false) := by
  have h := flip_second_controlled_fails "p1" (0, 0) (0, 0) "p1" "A"
    sampleMidBoard sampleMidBoard_inv rfl (by decide) (by decide)
    ⟨by decide, by decide⟩ ⟨by decide, by decide⟩
    (by decide) (by decide) (by decide)
  exact ⟨h.1, h.2.2.1, h.2.2.2.2.2.2.1⟩

/-- Field-level evaluation of rule 3-A on one in-bounds occupied cell. -/
theorem removeMatchedCell_fields (player : String) (s : BoardState) (p : Pos)
    (h1 : p.1 < s.rows) (h2 : p.2 < s.columns) (hc : s.cards p ≠ none) :
    (removeMatchedCell player s p).cards = Function.update s.cards p none ∧
    (removeMatchedCell player s p).faceUp = Function.update s.faceUp p false ∧
    (removeMatchedCell player s p).controllers =
      Function.update s.controllers p none ∧
    (removeMatchedCell player s p).waitingPlayers =
      Function.update s.waitingPlayers p [] ∧
    (removeMatchedCell player s p).changeWatchers = [] ∧
    (removeMatchedCell player s p).notifications = s.notifications + 1 ∧
    (removeMatchedCell player s p).previousMoves = s.previousMoves ∧
    (removeMatchedCell player s p).rows = s.rows ∧
    (removeMatchedCell player s p).columns = s.columns := by
  unfold removeMatchedCell notifyChangeWatchers notifyWaitingPlayers
  rw [if_pos ⟨h1, h2, hc⟩]
  exact ⟨rfl, rfl, rfl, rfl, rfl, rfl, rfl, rfl, rfl⟩

/-- Evaluation of the whole cleanup block on a matched two-cell pending
move: both cells are removed, their waiters are woken, one change
notification fires per removal, and the record is cleared. -/
theorem cleanup_matched_pair (player : String) (p1 p2 : Pos) (s : BoardState)
    (hprev : s.previousMoves player = some ([p1, p2], true))
    (h11 : p1.1 < s.rows) (h12 : p1.2 < s.columns)
    (h21 : p2.1 < s.rows) (h22 : p2.2 < s.columns)
    (hne : p1 ≠ p2) (hc1 : s.cards p1 ≠ none) (hc2 : s.cards p2 ≠ none) :
    (cleanupPreviousMove player s).cards p1 = none ∧
    (cleanupPreviousMove player s).cards p2 = none ∧
    (cleanupPreviousMove player s).faceUp p1 = false ∧
    (cleanupPreviousMove player s).faceUp p2 = false ∧
    (cleanupPreviousMove player s).controllers p1 = none ∧
    (cleanupPreviousMove player s).controllers p2 = none ∧
    (cleanupPreviousMove player s).waitingPlayers p1 = [] ∧
    (cleanupPreviousMove player s).waitingPlayers p2 = [] ∧
    (cleanupPreviousMove player s).changeWatchers = [] ∧
    (cleanupPreviousMove player s).notifications = s.notifications + 2 ∧
    (cleanupPreviousMove player s).previousMoves player = none ∧
    (cleanupPreviousMove player s).rows = s.rows ∧
    (cleanupPreviousMove player s).columns = s.columns := by
  obtain ⟨a1, a2, a3, a4, a5, a6, a7, a8, a9⟩ :=
    removeMatchedCell_fields player s p1 h11 h12 hc1
  obtain ⟨b1, b2, b3, b4, b5, b6, b7, b8, b9⟩ :=
    removeMatchedCell_fields player (removeMatchedCell player s p1) p2
      (by rw [a8]; exact h21) (by rw [a9]; exact h22)
      (by rw [a1, Function.update_noteq (Ne.symm hne)]; exact hc2)
  refine ⟨?_, ?_, ?_, ?_, ?_, ?_, ?_, ?_, ?_, ?_, ?_, ?_, ?_⟩ <;>
    simp [cleanupPreviousMove, hprev, a1, a2, a3, a4, a5, a6, a7, a8, a9,
      b1, b2, b3, b4, b5, b6, b7, b8, b9, Function.update_same,
      Function.update_noteq hne, Function.update_noteq (Ne.symm hne)]

/-! ## Claim C6 -/

/-- C6 (confirmed): when a player's pending-move record is a matched
pair, their next flip call first removes both recorded cells (empty,
face down, controller cleared), wakes every wait-queue entry for those
cells, fires one board-change notification per removal, and clears the
record — all before the new flip target is evaluated (the attempt equals
`flipEval` of the target on the cleaned state). -/
theorem matched_pair_lazy_cleanup (player : String) (p1 p2 target : Pos)
    (s : BoardState)
    (hprev : s.previousMoves player = some ([p1, p2], true))
    (h11 : p1.1 < s.rows) (h12 : p1.2 < s.columns)
    (h21 : p2.1 < s.rows) (h22 : p2.2 < s.columns)
    (hne : p1 ≠ p2) (hc1 : s.cards p1 ≠ none) (hc2 : s.cards p2 ≠ none)
    (ht1 : target.1 < s.rows) (ht2 : target.2 < s.columns) :
    flipCardAttempt player target.1 target.2 s =
      flipEval player target (cleanupPreviousMove player s) ∧
    (cleanupPreviousMove player s).cards p1 = none ∧
    (cleanupPreviousMove player s).cards p2 = none ∧
    (cleanupPreviousMove player s).faceUp p1 = false ∧
    (cleanupPreviousMove player s).faceUp p2 = false ∧
    (cleanupPreviousMove player s).controllers p1 = none ∧
    (cleanupPreviousMove player s).controllers p2 = none ∧
    (cleanupPreviousMove player s).waitingPlayers p1 = [] ∧
    (cleanupPreviousMove player s).waitingPlayers p2 = [] ∧
    (cleanupPreviousMove player s).changeWatchers = [] ∧
    (cleanupPreviousMove player s).notifications = s.notifications + 2 ∧
    (cleanupPreviousMove player s).previousMoves player = none := by
  obtain ⟨g1, g2, g3, g4, g5, g6, g7, g8, g9, g10, g11, _, _⟩ :=
    cleanup_matched_pair player p1 p2 s hprev h11 h12 h21 h22 hne hc1 hc2
  exact ⟨flipCardAttempt_inBounds player target s ht1 ht2,
    g1, g2, g3, g4, g5, g6, g7, g8, g9, g10, g11⟩

/-- A 1×3 board where `p1` holds a matched `A` pair at `(0,0)`/`(0,1)`
recorded as its pending move, a waiter queued on `(0,1)` and one change
watcher pending. -/
def sampleMatchedBoard : BoardState where
  rows := 1
  columns := 3
  cards := fun q => if q = ((0 : Nat), (0 : Nat)) then some "A"
    else if q = ((0 : Nat), (1 : Nat)) then some "A"
    else if q = ((0 : Nat), (2 : Nat)) then some "B" else none
  faceUp := fun q =>
    decide (q = ((0 : Nat), (0 : Nat)) ∨ q = ((0 : Nat), (1 : Nat)))
  controllers := fun q =>
    if q = ((0 : Nat), (0 : Nat)) ∨ q = ((0 : Nat), (1 : Nat)) then some "p1"
    else none
  playerCards := fun q =>
    if q = "p1" then [((0 : Nat), (0 : Nat)), ((0 : Nat), (1 : Nat))] else []
  previousMoves := fun q =>
    if q = "p1" then some ([((0 : Nat), (0 : Nat)), ((0 : Nat), (1 : Nat))], true)
    else none
  waitingPlayers := fun q => if q = ((0 : Nat), (1 : Nat)) then [7] else []
  changeWatchers := [3]
  nextToken := 8
  notifications := 0

/-- Witness for C6: on `sampleMatchedBoard`, flipping `(0,2)` removes the
matched pair first, wakes the waiter on `(0,1)` and the watcher, fires
two notifications and clears the record. -/
theorem matched_pair_lazy_cleanup_witness :
    (cleanupPreviousMove "p1" sampleMatchedBoard).cards (0, 0) = none ∧
    (cleanupPreviousMove "p1" sampleMatchedBoard).cards (0, 1) = none ∧
    (cleanupPreviousMove "p1" sampleMatchedBoard).waitingPlayers (0, 1) = [] ∧
    (cleanupPreviousMove "p1" sampleMatchedBoard).changeWatchers = [] ∧
    (cleanupPreviousMove "p1" sampleMatchedBoard).notifications = 2 ∧
    (cleanupPreviousMove "p1" sampleMatchedBoard).previousMoves "p1" = none := by
  have h := matched_pair_lazy_cleanup "p1" (0, 0) (0, 1) (0, 2)
    sampleMatchedBoard (by decide) (by decide) (by decide) (by decide)
    (by decide) (by decide) (by decide) (by decide) (by decide) (by decide)
  exact ⟨h.2.1, h.2.2.1, h.2.2.2.2.2.2.2.2.1, h.2.2.2.2.2.2.2.2.2.1,
    h.2.2.2.2.2.2.2.2.2.2.1, h.2.2.2.2.2.2.2.2.2.2.2⟩

/-- Indexing into a `flatMap` whose pieces all have length `k`. -/
theorem flatMap_getElem_uniform {α β : Type} (f : α → List β) (k : Nat)
    (hk : ∀ a, (f a).length = k) (l : List α) :
    ∀ (i j : Nat) (a : α), l[i]? = some a → j < k →
      (l.flatMap f)[i * k + j]? = (f a)[j]? := by
  induction l with
  | nil =>
    intro i j a ha _
    simp at ha
  | cons b l ih =>
    intro i j a ha hj
    cases i with
    | zero =>
      rw [List.getElem?_cons_zero, Option.some_inj] at ha
      subst ha
      rw [List.flatMap_cons,
        List.getElem?_append_left (by rw [hk]; simpa using hj)]
      simp
    | succ i =>
      rw [List.getElem?_cons_succ] at ha
      have hge : (f b).length ≤ (i + 1) * k + j := by
        rw [hk]
        have : k ≤ (i + 1) * k := Nat.le_mul_of_pos_left k (Nat.succ_pos i)
        omega
      rw [List.flatMap_cons, List.getElem?_append_right hge, hk]
      have harith : (i + 1) * k + j - k = i * k + j := by
        have : (i + 1) * k = i * k + k := by ring
        omega
      rw [harith]
      exact ih i j a ha hj

theorem boardStateLines_length (player : String) (s : BoardState) :
    (boardStateLines player s).length = s.rows * s.columns := by
  unfold boardStateLines
  rw [List.length_flatMap]
  simp only [Function.comp_def, List.length_map, List.length_range]
  have : List.map (fun _ : Nat => s.columns) (List.range s.rows) =
      List.replicate s.rows s.columns :=
    List.eq_replicate_iff.mpr ⟨by simp, by simp⟩
  rw [this, List.sum_replicate, smul_eq_mul]

theorem boardStateLines_getElem (player : String) (s : BoardState)
    (r c : Nat) (hr : r < s.rows) (hc : c < s.columns) :
    (boardStateLines player s)[r * s.columns + c]? = some (spot player s (r, c)) := by
  unfold boardStateLines
  rw [flatMap_getElem_uniform _ s.columns
    (fun a => by rw [List.length_map, List.length_range]) (List.range s.rows)
    r c r (by rw [List.getElem?_range hr]) hc]
  rw [List.getElem?_map, List.getElem?_range hc]
  rfl

/-! ## Claim C8 -/

/-- C8 (confirmed): the rendered text is exactly the dimension header
line followed by one line per cell in row-major order, each cell line
being exactly `none` (empty), `down` (face down), `my v` (face up,
controlled by the requesting player) or `up v` (face up, otherwise),
every line newline-terminated, with nothing else in the output. -/
theorem render_format (player : String) (s : BoardState) :
    get_board_state player s = String.intercalate "\n"
      ((toString s.rows ++ "x" ++ toString s.columns) ::
        boardStateLines player s) ++ "\n" ∧
    (boardStateLines player s).length = s.rows * s.columns ∧
    (∀ r c, r < s.rows → c < s.columns →
      (boardStateLines player s)[r * s.columns + c]? =
        some (spot player s (r, c))) ∧
    (∀ line ∈ boardStateLines player s, line = "none" ∨ line = "down" ∨
      (∃ v, line = "my " ++ v) ∨ (∃ v, line = "up " ++ v)) ∧
    (∀ p : Pos,
      (s.cards p = none → spot player s p = "none") ∧
      (∀ v, s.cards p = some v → s.faceUp p = false →
        spot player s p = "down") ∧
      (∀ v, s.cards p = some v → s.faceUp p = true →
        s.controllers p = some player → spot player s p = "my " ++ v) ∧
      (∀ v, s.cards p = some v → s.faceUp p = true →
        s.controllers p ≠ some player → spot player s p = "up " ++ v)) := by
  refine ⟨rfl, boardStateLines_length player s,
    fun r c hr hc => boardStateLines_getElem player s r c hr hc, ?_, ?_⟩
  · intro line hline
    unfold boardStateLines at hline
    rw [List.mem_flatMap] at hline
    obtain ⟨r, _, hline⟩ := hline
    rw [List.mem_map] at hline
    obtain ⟨c, _, hline⟩ := hline
    subst hline
    unfold spot
    rcases hcard : s.cards (r, c) with _ | v
    · simp only [hcard]
      exact Or.inl trivial
    · simp only [hcard]
      by_cases hf : s.faceUp (r, c) = false
      · rw [if_pos hf]
        exact Or.inr (Or.inl rfl)
      · rw [if_neg hf]
        by_cases hctl : s.controllers (r, c) = some player
        · rw [if_pos hctl]
          exact Or.inr (Or.inr (Or.inl ⟨v, rfl⟩))
        · rw [if_neg hctl]
          exact Or.inr (Or.inr (Or.inr ⟨v, rfl⟩))
  · intro p
    refine ⟨?_, ?_, ?_, ?_⟩
    · intro hc
      unfold spot
      simp only [hc]
    · intro v hc hf
      unfold spot
      simp only [hc]
      rw [if_pos hf]
    · intro v hc hf hctl
      unfold spot
      simp only [hc]
      rw [if_neg (by rw [hf]; simp), if_pos hctl]
    · intro v hc hf hctl
      unfold spot
      simp only [hc]
      rw [if_neg (by rw [hf]; simp), if_neg hctl]

/-- Witness for C8: concrete render facts on `sampleMidBoard` — two cell
lines, line 0 is the `my A` spot of the controlled cell. -/
theorem render_format_witness :
    (boardStateLines "p1" sampleMidBoard).length = 2 ∧
    (boardStateLines "p1" sampleMidBoard)[0]? =
      some (spot "p1" sampleMidBoard (0, 0)) ∧
    spot "p1" sampleMidBoard (0, 0) = "my " ++ "A" ∧
    spot "p1" sampleMidBoard (0, 1) = "down" := by
  have h := render_format "p1" sampleMidBoard
  exact ⟨h.2.1, h.2.2.1 0 0 (by decide) (by decide),
    (h.2.2.2.2 (0, 0)).2.2.1 "A" (by decide) (by decide) (by decide),
    (h.2.2.2.2 (0, 1)).2.1 "B" (by decide) (by decide)⟩

/-- The changed-flag of the write-back loop is set as soon as one listed
position is in bounds and still holds the original value (and once set it
stays set). -/
theorem writeBackStep_flag (v newV : String) (acc : BoardState × Bool) (p : Pos)
    (h : p.1 < acc.1.rows ∧ p.2 < acc.1.columns ∧ acc.1.cards p = some v) :
    (writeBackStep v newV acc p).2 = true := by
  unfold writeBackStep
  rw [if_pos h]

theorem writeBackStep_keep (v newV : String) (acc : BoardState × Bool) (p : Pos)
    (h : ¬ (p.1 < acc.1.rows ∧ p.2 < acc.1.columns ∧ acc.1.cards p = some v)) :
    writeBackStep v newV acc p = acc := by
  unfold writeBackStep
  rw [if_neg h]

/-- Once the changed-flag of the write-back loop is set, it stays set. -/
theorem writeBack_flag_monotone (v newV : String) (ps : List Pos) :
    ∀ acc : BoardState × Bool, acc.2 = true →
      (ps.foldl (writeBackStep v newV) acc).2 = true := by
  induction ps with
  | nil => intro acc h; simpa using h
  | cons p ps ih =>
    intro acc h
    rw [List.foldl_cons]
    by_cases hcond : p.1 < acc.1.rows ∧ p.2 < acc.1.columns ∧
        acc.1.cards p = some v
    · apply ih
      exact writeBackStep_flag v newV acc p hcond
    · rw [writeBackStep_keep v newV acc p hcond]
      exact ih acc h

theorem writeBack_flag_true (v newV : String) (ps : List Pos) :
    ∀ (s : BoardState) (b : Bool),
      ((∃ q ∈ ps, q.1 < s.rows ∧ q.2 < s.columns ∧ s.cards q = some v) ∨
        b = true) →
      (ps.foldl (writeBackStep v newV) (s, b)).2 = true := by
  induction ps with
  | nil =>
    intro s b h
    rcases h with ⟨q, hq, _⟩ | hb
    · cases hq
    · simpa using hb
  | cons p ps ih =>
    intro s b h
    rw [List.foldl_cons]
    by_cases hcond : p.1 < s.rows ∧ p.2 < s.columns ∧ s.cards p = some v
    · apply writeBack_flag_monotone
      exact writeBackStep_flag v newV (s, b) p hcond
    · rw [writeBackStep_keep v newV (s, b) p hcond]
      apply ih
      rcases h with ⟨q, hqmem, hq⟩ | hb
      · rcases List.mem_cons.mp hqmem with rfl | hmem
        · exact absurd hq hcond
        · exact Or.inl ⟨q, hmem, hq⟩
      · exact Or.inr hb

/-- Processing a value group that still has a live position and whose
transform changes the value wakes every change watcher. -/
theorem processGroup_wakes (f : String → String) (s : BoardState) (v : String)
    (ps : List Pos)
    (hex : ∃ q ∈ ps, q.1 < s.rows ∧ q.2 < s.columns ∧ s.cards q = some v)
    (hfv : f v ≠ v) : (processGroup f s (v, ps)).changeWatchers = [] := by
  show (if (writeBack v (f v) s ps).2 = true ∧ f v ≠ v then
      notifyChangeWatchers (writeBack v (f v) s ps).1
    else (writeBack v (f v) s ps).1).changeWatchers = []
  rw [if_pos ⟨writeBack_flag_true v (f v) ps s false (Or.inl hex), hfv⟩]
  rfl

/-! ## Claim C10 -/

/-- C10 (confirmed): a pending watch is never resolved by an operation
that only takes or relinquishes control without changing face state
(conjuncts one and two), nor by a flip that fails without mutating the
board (out-of-bounds, or no-card with nothing held — conjuncts three and
four); it is resolved by the next face-state flip, cell removal, or cell
value change (conjuncts five to seven). -/
theorem watchers_wake_only_on_qualifying (player q : String) (first p : Pos)
    (row col : Int) (s : BoardState) :
    (s.previousMoves player = none → s.playerCards player = [] →
      p.1 < s.rows → p.2 < s.columns → s.cards p ≠ none →
      s.faceUp p = true → s.controllers p = none →
      (flipCardAttempt player p.1 p.2 s).1.changeWatchers = s.changeWatchers ∧
      (flipCardAttempt player p.1 p.2 s).1.faceUp = s.faceUp ∧
      (flipCardAttempt player p.1 p.2 s).1.cards = s.cards) ∧
    (s.previousMoves player = none → s.playerCards player = [first] →
      s.controllers first = some player → p.1 < s.rows → p.2 < s.columns →
      s.cards p ≠ none → s.faceUp p = true → s.controllers p = some q →
      (flipCardAttempt player p.1 p.2 s).1.changeWatchers = s.changeWatchers ∧
      (flipCardAttempt player p.1 p.2 s).1.faceUp = s.faceUp) ∧
    (¬ (0 ≤ row ∧ row < (s.rows : Int) ∧ 0 ≤ col ∧ col < (s.columns : Int)) →
      (flipCardAttempt player row col s).1.changeWatchers = s.changeWatchers) ∧
    (s.previousMoves player = none → s.playerCards player = [] →
      p.1 < s.rows → p.2 < s.columns → s.cards p = none →
      flipCardAttempt player p.1 p.2 s = (s, .errored .noCard)) ∧
    (s.previousMoves player = none → s.playerCards player = [] →
      p.1 < s.rows → p.2 < s.columns → s.cards p ≠ none →
      s.faceUp p = false → s.controllers p = none →
      (flipCardAttempt player p.1 p.2 s).1.changeWatchers = [] ∧
      (flipCardAttempt player p.1 p.2 s).1.faceUp p = true) ∧
    (s.previousMoves player = some ([first], true) →
      first.1 < s.rows → first.2 < s.columns → s.cards first ≠ none →
      (cleanupPreviousMove player s).changeWatchers = []) ∧
    (∀ (f : String → String) (v : String) (ps : List Pos),
      (∃ c ∈ ps, c.1 < s.rows ∧ c.2 < s.columns ∧ s.cards c = some v) →
      f v ≠ v → (processGroup f s (v, ps)).changeWatchers = []) := by
  refine ⟨?_, ?_, ?_, ?_, ?_, ?_, ?_⟩
  · intro h1 h2 hb1 hb2 hcard hup hctl
    rw [flipCardAttempt_inBounds player p s hb1 hb2,
      cleanupPreviousMove_of_none player s h1,
      flipEval_firstCard player p (s := s) h2 hcard]
    refine ⟨?_, ?_, ?_⟩ <;>
      simp [flipFirstCard, notifyWaitingPlayers, hup, hctl]
  · intro h1 h2 hctl hb1 hb2 hcard hup hq
    rw [flipCardAttempt_inBounds player p s hb1 hb2,
      cleanupPreviousMove_of_none player s h1,
      flipEval_secondCard player first p (s := s) h2 hcard,
      flipSecondCard_controlled player first p q s hcard hup hq]
    obtain ⟨_, g2, _, _, _, _, g7, _⟩ :=
      relinquishFirstAndRecord_fields player first s hctl h2
    exact ⟨g7, g2⟩
  · intro h
    unfold flipCardAttempt
    rw [if_neg h]
  · intro h1 h2 hb1 hb2 hcard
    rw [flipCardAttempt_inBounds player p s hb1 hb2,
      cleanupPreviousMove_of_none player s h1]
    unfold flipEval
    rw [h2, if_pos ⟨hcard, by simp⟩]
  · intro h1 h2 hb1 hb2 hcard hdown hctl
    rw [flipCardAttempt_inBounds player p s hb1 hb2,
      cleanupPreviousMove_of_none player s h1,
      flipEval_firstCard player p (s := s) h2 hcard]
    refine ⟨?_, ?_⟩ <;>
      simp [flipFirstCard, notifyWaitingPlayers, notifyChangeWatchers,
        hdown, hctl, Function.update_same]
  · intro hprev hb1 hb2 hcard
    obtain ⟨_, _, _, _, a5, _, _, _, _⟩ :=
      removeMatchedCell_fields player s first hb1 hb2 hcard
    simp [cleanupPreviousMove, hprev, a5]
  · intro f v ps hex hfv
    exact processGroup_wakes f s v ps hex hfv

/-- A 1×2 board with one pending watcher: the `A` at `(0,0)` is face up
and uncontrolled, the `B` at `(0,1)` face down. -/
def sampleWatchBoard : BoardState where
  rows := 1
  columns := 2
  cards := fun c => if c = ((0 : Nat), (0 : Nat)) then some "A"
    else if c = ((0 : Nat), (1 : Nat)) then some "B" else none
  faceUp := fun c => decide (c = ((0 : Nat), (0 : Nat)))
  controllers := fun _ => none
  playerCards := fun _ => []
  previousMoves := fun _ => none
  waitingPlayers := fun _ => []
  changeWatchers := [5]
  nextToken := 6
  notifications := 0

/-- Witness for C10: on `sampleWatchBoard`, taking control of the
face-up `A` leaves the watcher pending, while flipping the face-down `B`
and mapping `A` to `X` both wake it. -/
theorem watchers_wake_only_on_qualifying_witness :
    (flipCardAttempt "p1" 0 0 sampleWatchBoard).1.changeWatchers = [5] ∧
    (flipCardAttempt "p1" 0 1 sampleWatchBoard).1.changeWatchers = [] ∧
    (processGroup (fun _ => "X") sampleWatchBoard
      ("A", [(0, 0)])).changeWatchers = [] := by
  have h := watchers_wake_only_on_qualifying "p1" "p1" (0, 0) (0, 0) 0 0
    sampleWatchBoard
  have h2 := watchers_wake_only_on_qualifying "p1" "p1" (0, 0) (0, 1) 0 0
    sampleWatchBoard
  exact ⟨(h.1 rfl (by decide) (by decide) (by decide) (by decide) (by decide)
      (by decide)).1,
    (h2.2.2.2.2.1 rfl (by decide) (by decide) (by decide) (by decide)
      (by decide) (by decide)).1,
    h.2.2.2.2.2.2 (fun _ => "X") "A" [(0, 0)]
      ⟨(0, 0), by decide, by decide, by decide, by decide⟩ (by decide)⟩

/-! ## Preservation of the grid invariant (claim C2) -/

theorem gridInv_notifyWaitingPlayers (pos : Pos) (s : BoardState)
    (h : GridInv s) : GridInv (notifyWaitingPlayers pos s) := h

theorem gridInv_notifyChangeWatchers (s : BoardState) (h : GridInv s) :
    GridInv (notifyChangeWatchers s) := h

theorem gridInv_relinquishControl (player : String) (pos : Pos)
    (s : BoardState) (h : GridInv s) : GridInv (relinquishControl player pos s) := by
  unfold relinquishControl
  split
  · intro q h1 h2
    refine ⟨?_, ?_⟩
    · intro hc
      by_cases hq : q = pos
      · subst hq
        exact absurd (Function.update_same q none s.controllers) hc
      · exact (h q h1 h2).1
          (fun heq => hc ((Function.update_noteq hq none s.controllers).trans heq))
    · intro hc
      refine ⟨((h q h1 h2).2 hc).1, ?_⟩
      by_cases hq : q = pos
      · subst hq
        exact Function.update_same q none s.controllers
      · exact (Function.update_noteq hq none s.controllers).trans
          (((h q h1 h2).2 hc).2)
  · exact h

theorem gridInv_relinquishFirstAndRecord (player : String) (first : Pos)
    (s : BoardState) (h : GridInv s) :
    GridInv (relinquishFirstAndRecord player first s) :=
  gridInv_notifyWaitingPlayers first _
    (gridInv_relinquishControl player first s h)

theorem gridInv_removeMatchedCell (player : String) (s : BoardState) (p : Pos)
    (h : GridInv s) : GridInv (removeMatchedCell player s p) := by
  unfold removeMatchedCell
  split
  · intro q h1 h2
    simp only [notifyChangeWatchers, notifyWaitingPlayers]
    refine ⟨?_, ?_⟩
    · intro hc
      by_cases hq : q = p
      · subst hq
        exact absurd (Function.update_same q none s.controllers) hc
      · exact (Function.update_noteq hq false s.faceUp).trans
          ((h q h1 h2).1 (fun heq =>
            hc ((Function.update_noteq hq none s.controllers).trans heq)))
    · intro hc
      by_cases hq : q = p
      · subst hq
        exact ⟨Function.update_same q false s.faceUp,
          Function.update_same q none s.controllers⟩
      · have hc0 : s.cards q = none :=
          (Function.update_noteq hq none s.cards).symm.trans hc
        exact ⟨(Function.update_noteq hq false s.faceUp).trans
            (((h q h1 h2).2 hc0).1),
          (Function.update_noteq hq none s.controllers).trans
            (((h q h1 h2).2 hc0).2)⟩
  · exact h

theorem gridInv_turnDownCell (s : BoardState) (p : Pos) (h : GridInv s) :
    GridInv (turnDownCell s p) := by
  unfold turnDownCell
  split
  · rename_i hguard
    intro q h1 h2
    simp only [notifyChangeWatchers, notifyWaitingPlayers]
    refine ⟨?_, ?_⟩
    · intro hc
      by_cases hq : q = p
      · subst hq
        exact absurd hguard.2.2.2.2 hc
      · exact (Function.update_noteq hq false s.faceUp).trans
          ((h q h1 h2).1 hc)
    · intro hc
      by_cases hq : q = p
      · subst hq
        exact absurd hc hguard.2.2.1
      · exact ⟨(Function.update_noteq hq false s.faceUp).trans
          (((h q h1 h2).2 hc).1), ((h q h1 h2).2 hc).2⟩
  · exact h

theorem gridInv_foldl {α : Type} (step : BoardState → α → BoardState)
    (hstep : ∀ s a, GridInv s → GridInv (step s a)) :
    ∀ (l : List α) (s : BoardState), GridInv s → GridInv (l.foldl step s) := by
  intro l
  induction l with
  | nil => intro s h; exact h
  | cons a l ih =>
    intro s h
    rw [List.foldl_cons]
    exact ih (step s a) (hstep s a h)

theorem gridInv_cleanupPreviousMove (player : String) (s : BoardState)
    (h : GridInv s) : GridInv (cleanupPreviousMove player s) := by
  unfold cleanupPreviousMove
  split
  · exact h
  · rename_i prevCards matched _
    show GridInv { (if matched then prevCards.foldl (removeMatchedCell player) s
        else prevCards.foldl turnDownCell s) with
      previousMoves := Function.update _ player none }
    split
    · exact gridInv_foldl (removeMatchedCell player)
        (fun s a hs => gridInv_removeMatchedCell player s a hs) prevCards s h
    · exact gridInv_foldl turnDownCell
        (fun s a hs => gridInv_turnDownCell s a hs) prevCards s h

theorem gridInv_flipFirstCard (player : String) (p : Pos) (s : BoardState)
    (hc : s.cards p ≠ none) (h : GridInv s) :
    GridInv (flipFirstCard player p s).1 := by
  unfold flipFirstCard
  split
  · exact h
  · split
    · intro q h1 h2
      simp only [notifyChangeWatchers, notifyWaitingPlayers]
      by_cases hq : q = p
      · subst hq
        exact ⟨fun _ => Function.update_same q true s.faceUp,
          fun hcc => absurd hcc hc⟩
      · exact ⟨fun hcq => (Function.update_noteq hq true s.faceUp).trans
            ((h q h1 h2).1 (fun heq => hcq
              ((Function.update_noteq hq (some player) s.controllers).trans heq))),
          fun hcc => ⟨(Function.update_noteq hq true s.faceUp).trans
              (((h q h1 h2).2 hcc).1),
            (Function.update_noteq hq (some player) s.controllers).trans
              (((h q h1 h2).2 hcc).2)⟩⟩
    · split
      · rename_i hdown hnone
        intro q h1 h2
        simp only [notifyWaitingPlayers]
        by_cases hq : q = p
        · subst hq
          have hup : s.faceUp q = true := by
            revert hdown
            cases s.faceUp q <;> simp
          exact ⟨fun _ => hup, fun hcc => absurd hcc hc⟩
        · exact ⟨fun hcq => (h q h1 h2).1 (fun heq => hcq
              ((Function.update_noteq hq (some player) s.controllers).trans heq)),
            fun hcc => ⟨((h q h1 h2).2 hcc).1,
              (Function.update_noteq hq (some player) s.controllers).trans
                (((h q h1 h2).2 hcc).2)⟩⟩
      · exact h

theorem gridInv_flipSecondCard (player : String) (first p : Pos)
    (s : BoardState) (h : GridInv s) :
    GridInv (flipSecondCard player first p s).1 := by
  unfold flipSecondCard
  split
  · exact gridInv_relinquishFirstAndRecord player first s h
  · split
    · exact gridInv_relinquishFirstAndRecord player first s h
    · rename_i hcne hnotctl
      have hs1 : GridInv (if s.faceUp p = false then
          notifyChangeWatchers (notifyWaitingPlayers p
            { s with faceUp := Function.update s.faceUp p true }) else s) := by
        split
        · intro q h1 h2
          simp only [notifyChangeWatchers, notifyWaitingPlayers]
          by_cases hq : q = p
          · subst hq
            exact ⟨fun _ => Function.update_same q true s.faceUp,
              fun hcc => absurd hcc hcne⟩
          · exact ⟨fun hcq => (Function.update_noteq hq true s.faceUp).trans
                ((h q h1 h2).1 hcq),
              fun hcc => ⟨(Function.update_noteq hq true s.faceUp).trans
                  (((h q h1 h2).2 hcc).1), ((h q h1 h2).2 hcc).2⟩⟩
        · exact h
      have hup1 : (if s.faceUp p = false then
          notifyChangeWatchers (notifyWaitingPlayers p
            { s with faceUp := Function.update s.faceUp p true })
          else s).faceUp p = true := by
        split
        · simp only [notifyChangeWatchers, notifyWaitingPlayers]
          exact Function.update_same p true s.faceUp
        · rename_i hnd
          revert hnd
          cases s.faceUp p <;> simp
      have hcards1 : (if s.faceUp p = false then
          notifyChangeWatchers (notifyWaitingPlayers p
            { s with faceUp := Function.update s.faceUp p true })
          else s).cards = s.cards := by
        split <;> rfl
      set s1 := if s.faceUp p = false then
          notifyChangeWatchers (notifyWaitingPlayers p
            { s with faceUp := Function.update s.faceUp p true }) else s with hs1def
      by_cases hvv : s1.cards first = s1.cards p
    -- match branch: take control of p
      · simp only [if_pos hvv]
        intro q h1 h2
        simp only [notifyWaitingPlayers]
        by_cases hq : q = p
        · subst hq
          refine ⟨fun _ => hup1, fun hcc => ?_⟩
          rw [hcards1] at hcc
          exact absurd hcc hcne
        · exact ⟨fun hcq => (hs1 q h1 h2).1 (fun heq => hcq
              ((Function.update_noteq hq (some player) s1.controllers).trans heq)),
            fun hcc => ⟨((hs1 q h1 h2).2 hcc).1,
              (Function.update_noteq hq (some player) s1.controllers).trans
                (((hs1 q h1 h2).2 hcc).2)⟩⟩
    -- non-match branch: relinquish both
      · simp only [if_neg hvv]
        exact gridInv_notifyWaitingPlayers p _
          (gridInv_notifyWaitingPlayers first _
            (gridInv_relinquishControl player p _
              (gridInv_relinquishControl player first s1 hs1)))

theorem gridInv_flipEval (player : String) (p : Pos) (s : BoardState)
    (h : GridInv s) : GridInv (flipEval player p s).1 := by
  unfold flipEval
  split
  · split
    · exact h
    · exact gridInv_relinquishFirstAndRecord player _ s h
  · rename_i hcond
    split
    · rename_i hempty
      apply gridInv_flipFirstCard player p s ?_ h
      intro hnone
      exact hcond ⟨hnone, by rw [hempty]; simp⟩
    · exact gridInv_flipSecondCard player _ p s h
    · exact h

theorem gridInv_flipCardAttempt (player : String) (row col : Int)
    (s : BoardState) (h : GridInv s) :
    GridInv (flipCardAttempt player row col s).1 := by
  unfold flipCardAttempt
  split
  · exact gridInv_flipEval player _ _ (gridInv_cleanupPreviousMove player s h)
  · exact h

theorem gridInv_writeBack_foldl (v newV : String) (ps : List Pos) :
    ∀ acc : BoardState × Bool, GridInv acc.1 →
      GridInv ((ps.foldl (writeBackStep v newV) acc).1) := by
  induction ps with
  | nil => intro acc h; exact h
  | cons p ps ih =>
    intro acc h
    rw [List.foldl_cons]
    apply ih
    unfold writeBackStep
    split
    · intro q h1 h2
      refine ⟨(h q h1 h2).1, fun hcc => ?_⟩
      by_cases hq : q = p
      · subst hq
        cases (Function.update_same q (some newV) acc.1.cards).symm.trans hcc
      · exact (h q h1 h2).2
          ((Function.update_noteq hq (some newV) acc.1.cards).symm.trans hcc)
    · exact h

theorem gridInv_processGroup (f : String → String) (s : BoardState)
    (g : String × List Pos) (h : GridInv s) : GridInv (processGroup f s g) := by
  show GridInv (if (writeBack g.1 (f g.1) s g.2).2 = true ∧ f g.1 ≠ g.1 then
      notifyChangeWatchers (writeBack g.1 (f g.1) s g.2).1
    else (writeBack g.1 (f g.1) s g.2).1)
  split
  · exact gridInv_notifyChangeWatchers _
      (gridInv_writeBack_foldl g.1 (f g.1) g.2 (s, false) h)
  · exact gridInv_writeBack_foldl g.1 (f g.1) g.2 (s, false) h

theorem gridInv_map_cards (f : String → String) (s : BoardState)
    (h : GridInv s) : GridInv (map_cards f s) :=
  gridInv_foldl (processGroup f)
    (fun s g hs => gridInv_processGroup f s g hs) (snapshotGroups s) s h

theorem gridInv_engineStep {s t : BoardState} (hstep : EngineStep s t)
    (h : GridInv s) : GridInv t := by
  cases hstep with
  | flipStep player row col s => exact gridInv_flipCardAttempt player row col s h
  | lookStep s => exact h
  | watchStep s => exact h
  | mapGroupStep f g s => exact gridInv_processGroup f s g h
  | mapStep f s => exact gridInv_map_cards f s h

theorem gridInv_boardInit (rows columns : Int) (cards0 : List (List String))
    (s0 : BoardState) (hinit : boardInit rows columns cards0 = .ok s0) :
    GridInv s0 := by
  unfold boardInit at hinit
  split_ifs at hinit
  rw [Except.ok.injEq] at hinit
  subst hinit
  intro q _ _
  exact ⟨fun hc => absurd rfl hc, fun _ => ⟨rfl, rfl⟩⟩

/-! ## Claim C2 -/

/-- C2 (confirmed): in every state reachable from a constructed board by
any sequence of flip attempts, looks, watch registrations and map
operations (whole calls or interleaved per-group write-backs), every
cell with a controller is face up, and every empty cell is face down and
uncontrolled. -/
theorem reachable_grid_invariant (rows columns : Int)
    (cards0 : List (List String)) (s0 s : BoardState)
    (hinit : boardInit rows columns cards0 = .ok s0)
    (hreach : Relation.ReflTransGen EngineStep s0 s) :
    ∀ p : Pos, p.1 < s.rows → p.2 < s.columns →
      (s.controllers p ≠ none → s.faceUp p = true) ∧
      (s.cards p = none → s.faceUp p = false ∧ s.controllers p = none) := by
  have hinv : GridInv s := by
    induction hreach with
    | refl => exact gridInv_boardInit rows columns cards0 s0 hinit
    | tail _ hstep ih => exact gridInv_engineStep hstep ih
  exact hinv

/-- The state built by `boardInit 1 2 [["A", "A"]]`, spelled out. -/
def initialSample : BoardState where
  rows := 1
  columns := 2
  cards := fun p => ([["A", "A"]].get? p.1).bind fun row => row.get? p.2
  faceUp := fun _ => false
  controllers := fun _ => none
  playerCards := fun _ => []
  previousMoves := fun _ => none
  waitingPlayers := fun _ => []
  changeWatchers := []
  nextToken := 0
  notifications := 0

/-- Witness for C2: after one concrete flip step from a freshly built
board, the grid invariant holds at cell `(0,0)`. -/
theorem reachable_grid_invariant_witness :
    ((flipCardAttempt "p1" 0 0 initialSample).1.controllers (0, 0) ≠ none →
      (flipCardAttempt "p1" 0 0 initialSample).1.faceUp (0, 0) = true) ∧
    ((flipCardAttempt "p1" 0 0 initialSample).1.cards (0, 0) = none →
      (flipCardAttempt "p1" 0 0 initialSample).1.faceUp (0, 0) = false ∧
      (flipCardAttempt "p1" 0 0 initialSample).1.controllers (0, 0) = none) :=
  reachable_grid_invariant 1 2 [["A", "A"]] initialSample
    (flipCardAttempt "p1" 0 0 initialSample).1 rfl
    (Relation.ReflTransGen.single (EngineStep.flipStep "p1" 0 0 initialSample))
    (0, 0) (by decide) (by decide)

/-! ## Card-value effect of the flip machinery (for claim C1)

A flip attempt never writes a card value: the only mutation of `_cards`
in `flip_card` is the removal in rule 3-A.  The following lemmas make
that precise: every helper leaves `cards` untouched except
`removeMatchedCell`, which can only turn a value into `none`, and all of
them keep the grid dimensions. -/

theorem relinquishControl_keeps (player : String) (pos : Pos) (s : BoardState) :
    (relinquishControl player pos s).cards = s.cards ∧
    (relinquishControl player pos s).rows = s.rows ∧
    (relinquishControl player pos s).columns = s.columns := by
  unfold relinquishControl
  split
  · exact ⟨rfl, rfl, rfl⟩
  · exact ⟨rfl, rfl, rfl⟩

theorem relinquishFirstAndRecord_keeps (player : String) (first : Pos)
    (s : BoardState) :
    (relinquishFirstAndRecord player first s).cards = s.cards ∧
    (relinquishFirstAndRecord player first s).rows = s.rows ∧
    (relinquishFirstAndRecord player first s).columns = s.columns := by
  unfold relinquishFirstAndRecord notifyWaitingPlayers
  obtain ⟨h1, h2, h3⟩ := relinquishControl_keeps player first s
  exact ⟨h1, h2, h3⟩

theorem turnDownCell_keeps (s : BoardState) (p : Pos) :
    (turnDownCell s p).cards = s.cards ∧ (turnDownCell s p).rows = s.rows ∧
    (turnDownCell s p).columns = s.columns := by
  unfold turnDownCell notifyChangeWatchers notifyWaitingPlayers
  split
  · exact ⟨rfl, rfl, rfl⟩
  · exact ⟨rfl, rfl, rfl⟩

theorem removeMatchedCell_keeps (player : String) (s : BoardState) (p : Pos) :
    ((removeMatchedCell player s p).rows = s.rows ∧
     (removeMatchedCell player s p).columns = s.columns) ∧
    ∀ q : Pos, (removeMatchedCell player s p).cards q = s.cards q ∨
      (removeMatchedCell player s p).cards q = none := by
  unfold removeMatchedCell notifyChangeWatchers notifyWaitingPlayers
  split
  · refine ⟨⟨rfl, rfl⟩, fun q => ?_⟩
    by_cases hq : q = p
    · subst hq
      exact Or.inr (Function.update_same q none s.cards)
    · exact Or.inl (Function.update_noteq hq none s.cards)
  · exact ⟨⟨rfl, rfl⟩, fun q => Or.inl rfl⟩

theorem foldl_cards_decr {α : Type} (step : BoardState → α → BoardState)
    (hstep : ∀ (s : BoardState) (a : α),
      ((step s a).rows = s.rows ∧ (step s a).columns = s.columns) ∧
      ∀ q : Pos, (step s a).cards q = s.cards q ∨ (step s a).cards q = none) :
    ∀ (l : List α) (s : BoardState),
      ((l.foldl step s).rows = s.rows ∧ (l.foldl step s).columns = s.columns) ∧
      ∀ q : Pos, (l.foldl step s).cards q = s.cards q ∨
        (l.foldl step s).cards q = none := by
  intro l
  induction l with
  | nil => intro s; exact ⟨⟨rfl, rfl⟩, fun q => Or.inl rfl⟩
  | cons a l ih =>
    intro s
    rw [List.foldl_cons]
    obtain ⟨⟨d1, d2⟩, hrest⟩ := ih (step s a)
    obtain ⟨⟨e1, e2⟩, hone⟩ := hstep s a
    refine ⟨⟨d1.trans e1, d2.trans e2⟩, fun q => ?_⟩
    rcases hrest q with hr | hr
    · rcases hone q with ho | ho
      · exact Or.inl (hr.trans ho)
      · exact Or.inr (hr.trans ho)
    · exact Or.inr hr

theorem cleanup_effect (player : String) (s : BoardState) :
    ((cleanupPreviousMove player s).rows = s.rows ∧
     (cleanupPreviousMove player s).columns = s.columns) ∧
    ∀ q : Pos, (cleanupPreviousMove player s).cards q = s.cards q ∨
      (cleanupPreviousMove player s).cards q = none := by
  unfold cleanupPreviousMove
  split
  · exact ⟨⟨rfl, rfl⟩, fun q => Or.inl rfl⟩
  · rename_i prevCards matched _
    split
    · exact foldl_cards_decr (removeMatchedCell player)
        (fun s a => removeMatchedCell_keeps player s a) prevCards s
    · obtain ⟨⟨d1, d2⟩, hrest⟩ := foldl_cards_decr turnDownCell
        (fun s a => ⟨⟨(turnDownCell_keeps s a).2.1, (turnDownCell_keeps s a).2.2⟩,
          fun q => Or.inl (congrFun (turnDownCell_keeps s a).1 q)⟩) prevCards s
      exact ⟨⟨d1, d2⟩, hrest⟩

theorem flipFirstCard_keeps (player : String) (p : Pos) (s : BoardState) :
    (flipFirstCard player p s).1.cards = s.cards ∧
    (flipFirstCard player p s).1.rows = s.rows ∧
    (flipFirstCard player p s).1.columns = s.columns := by
  unfold flipFirstCard notifyChangeWatchers notifyWaitingPlayers
  split
  · exact ⟨rfl, rfl, rfl⟩
  · split
    · exact ⟨rfl, rfl, rfl⟩
    · split
      · exact ⟨rfl, rfl, rfl⟩
      · exact ⟨rfl, rfl, rfl⟩

theorem flipSecondCard_keeps (player : String) (first p : Pos) (s : BoardState) :
    (flipSecondCard player first p s).1.cards = s.cards ∧
    (flipSecondCard player first p s).1.rows = s.rows ∧
    (flipSecondCard player first p s).1.columns = s.columns := by
  unfold flipSecondCard
  split
  · exact relinquishFirstAndRecord_keeps player first s
  · split
    · exact relinquishFirstAndRecord_keeps player first s
    · by_cases hf : s.faceUp p = false
      · simp only [if_pos hf, notifyChangeWatchers, notifyWaitingPlayers]
        split
        · exact ⟨rfl, rfl, rfl⟩
        · obtain ⟨c1, r1, l1⟩ := relinquishControl_keeps player first
            (notifyChangeWatchers (notifyWaitingPlayers p
              { s with faceUp := Function.update s.faceUp p true }))
          obtain ⟨c2, r2, l2⟩ := relinquishControl_keeps player p
            (relinquishControl player first
              (notifyChangeWatchers (notifyWaitingPlayers p
                { s with faceUp := Function.update s.faceUp p true })))
          exact ⟨c2.trans c1, r2.trans r1, l2.trans l1⟩
      · simp only [if_neg hf]
        split
        · exact ⟨rfl, rfl, rfl⟩
        · obtain ⟨c1, r1, l1⟩ := relinquishControl_keeps player first s
          obtain ⟨c2, r2, l2⟩ := relinquishControl_keeps player p
            (relinquishControl player first s)
          exact ⟨c2.trans c1, r2.trans r1, l2.trans l1⟩

theorem flipEval_keeps (player : String) (p : Pos) (s : BoardState) :
    (flipEval player p s).1.cards = s.cards ∧
    (flipEval player p s).1.rows = s.rows ∧
    (flipEval player p s).1.columns = s.columns := by
  unfold flipEval
  split
  · split
    · exact ⟨rfl, rfl, rfl⟩
    · exact relinquishFirstAndRecord_keeps player _ s
  · split
    · exact flipFirstCard_keeps player p s
    · exact flipSecondCard_keeps player _ p s
    · exact ⟨rfl, rfl, rfl⟩

/-- A flip attempt keeps the dimensions and either keeps or removes each
card value — it never writes a different value. -/
theorem flip_effect (player : String) (row col : Int) (s : BoardState) :
    ((flipCardAttempt player row col s).1.rows = s.rows ∧
     (flipCardAttempt player row col s).1.columns = s.columns) ∧
    ∀ q : Pos, (flipCardAttempt player row col s).1.cards q = s.cards q ∨
      (flipCardAttempt player row col s).1.cards q = none := by
  unfold flipCardAttempt
  split
  · obtain ⟨⟨d1, d2⟩, hdecr⟩ := cleanup_effect player s
    obtain ⟨c1, r1, l1⟩ := flipEval_keeps player
      (Int.toNat row, Int.toNat col) (cleanupPreviousMove player s)
    refine ⟨⟨r1.trans d1, l1.trans d2⟩, fun q => ?_⟩
    rw [congrFun c1 q]
    exact hdecr q
  · exact ⟨⟨rfl, rfl⟩, fun q => Or.inl rfl⟩

/-! ## Pointwise behaviour of the per-value write-back (for claim C1) -/

theorem writeBack_cards_not_mem (v newV : String) (ps : List Pos) :
    ∀ (acc : BoardState × Bool) (q : Pos), q ∉ ps →
      (ps.foldl (writeBackStep v newV) acc).1.cards q = acc.1.cards q := by
  induction ps with
  | nil => intro acc q _; rfl
  | cons p ps ih =>
    intro acc q hq
    rw [List.foldl_cons]
    have hqp : q ≠ p := fun h => hq (h ▸ List.mem_cons_self p ps)
    rw [ih (writeBackStep v newV acc p) q (fun h => hq (List.mem_cons_of_mem p h))]
    unfold writeBackStep
    split
    · exact Function.update_noteq hqp (some newV) acc.1.cards
    · rfl

theorem writeBack_cards_none (v newV : String) (ps : List Pos) :
    ∀ (acc : BoardState × Bool) (q : Pos), acc.1.cards q = none →
      (ps.foldl (writeBackStep v newV) acc).1.cards q = none := by
  induction ps with
  | nil => intro acc q h; exact h
  | cons p ps ih =>
    intro acc q h
    rw [List.foldl_cons]
    apply ih
    unfold writeBackStep
    split
    · rename_i hcond
      by_cases hqp : q = p
      · subst hqp
        cases h.symm.trans hcond.2.2
      · exact (Function.update_noteq hqp (some newV) acc.1.cards).trans h
    · exact h

theorem writeBackStep_dims (v newV : String) (acc : BoardState × Bool) (p : Pos) :
    (writeBackStep v newV acc p).1.rows = acc.1.rows ∧
    (writeBackStep v newV acc p).1.columns = acc.1.columns := by
  unfold writeBackStep
  split
  · exact ⟨rfl, rfl⟩
  · exact ⟨rfl, rfl⟩

theorem writeBack_cards_mem (v newV : String) (ps : List Pos) :
    ∀ (acc : BoardState × Bool) (q : Pos),
      q.1 < acc.1.rows → q.2 < acc.1.columns →
      (acc.1.cards q = some newV ∨ (q ∈ ps ∧ acc.1.cards q = some v)) →
      (ps.foldl (writeBackStep v newV) acc).1.cards q = some newV := by
  induction ps with
  | nil =>
    intro acc q _ _ h
    rcases h with h | ⟨hmem, _⟩
    · exact h
    · cases hmem
  | cons p ps ih =>
    intro acc q hb1 hb2 h
    rw [List.foldl_cons]
    refine ih (writeBackStep v newV acc p) q ?_ ?_ ?_
    · rw [(writeBackStep_dims v newV acc p).1]
      exact hb1
    · rw [(writeBackStep_dims v newV acc p).2]
      exact hb2
    · by_cases hqp : q = p
      · subst hqp
        rcases h with h | ⟨_, hv⟩
        · left
          unfold writeBackStep
          split
          · exact Function.update_same q (some newV) acc.1.cards
          · exact h
        · left
          unfold writeBackStep
          rw [if_pos ⟨hb1, hb2, hv⟩]
          exact Function.update_same q (some newV) acc.1.cards
      · rcases h with h | ⟨hmem, hv⟩
        · left
          unfold writeBackStep
          split
          · exact (Function.update_noteq hqp (some newV) acc.1.cards).trans h
          · exact h
        · have hmem' : q ∈ ps := by
            rcases List.mem_cons.mp hmem with h' | h'
            · exact absurd h' hqp
            · exact h'
          right
          refine ⟨hmem', ?_⟩
          unfold writeBackStep
          split
          · exact (Function.update_noteq hqp (some newV) acc.1.cards).trans hv
          · exact hv

theorem processGroup_cards_not_mem (f : String → String) (b : BoardState)
    (g : String × List Pos) (q : Pos) (hq : q ∉ g.2) :
    (processGroup f b g).cards q = b.cards q := by
  show (if (writeBack g.1 (f g.1) b g.2).2 = true ∧ f g.1 ≠ g.1 then
      notifyChangeWatchers (writeBack g.1 (f g.1) b g.2).1
    else (writeBack g.1 (f g.1) b g.2).1).cards q = b.cards q
  split
  · exact writeBack_cards_not_mem g.1 (f g.1) g.2 (b, false) q hq
  · exact writeBack_cards_not_mem g.1 (f g.1) g.2 (b, false) q hq

theorem processGroup_cards_none (f : String → String) (b : BoardState)
    (g : String × List Pos) (q : Pos) (h : b.cards q = none) :
    (processGroup f b g).cards q = none := by
  show (if (writeBack g.1 (f g.1) b g.2).2 = true ∧ f g.1 ≠ g.1 then
      notifyChangeWatchers (writeBack g.1 (f g.1) b g.2).1
    else (writeBack g.1 (f g.1) b g.2).1).cards q = none
  split
  · exact writeBack_cards_none g.1 (f g.1) g.2 (b, false) q h
  · exact writeBack_cards_none g.1 (f g.1) g.2 (b, false) q h

theorem processGroup_cards_mem (f : String → String) (b : BoardState)
    (w : String) (ps : List Pos) (q : Pos) (hb1 : q.1 < b.rows)
    (hb2 : q.2 < b.columns) (hmem : q ∈ ps) (hv : b.cards q = some w) :
    (processGroup f b (w, ps)).cards q = some (f w) := by
  show (if (writeBack w (f w) b ps).2 = true ∧ f w ≠ w then
      notifyChangeWatchers (writeBack w (f w) b ps).1
    else (writeBack w (f w) b ps).1).cards q = some (f w)
  split
  · exact writeBack_cards_mem w (f w) ps (b, false) q hb1 hb2 (Or.inr ⟨hmem, hv⟩)
  · exact writeBack_cards_mem w (f w) ps (b, false) q hb1 hb2 (Or.inr ⟨hmem, hv⟩)

/-! ## The snapshot grouping of `map_cards` (for claim C1) -/

theorem addToGroup_val {P : String → Pos → Prop} :
    ∀ (acc : List (String × List Pos)) (v : String) (p : Pos),
      (∀ w ps, (w, ps) ∈ acc → ∀ q ∈ ps, P w q) → P v p →
      ∀ w ps, (w, ps) ∈ addToGroup acc v p → ∀ q ∈ ps, P w q := by
  intro acc
  induction acc with
  | nil =>
    intro v p _ hp w ps hmem q hq
    rw [show addToGroup [] v p = [(v, [p])] from rfl,
      List.mem_singleton, Prod.mk.injEq] at hmem
    obtain ⟨rfl, rfl⟩ := hmem
    rw [List.mem_singleton] at hq
    subst hq
    exact hp
  | cons hd tl ih =>
    intro v p hacc hp w ps hmem q hq
    obtain ⟨w0, ps0⟩ := hd
    by_cases hw : w0 = v
    · simp only [addToGroup, if_pos hw] at hmem
      rcases List.mem_cons.mp hmem with heq | hmem'
      · rw [Prod.mk.injEq] at heq
        obtain ⟨rfl, rfl⟩ := heq
        rcases List.mem_append.mp hq with hq' | hq'
        · exact hacc w ps0 (List.mem_cons_self _ _) q hq'
        · rw [List.mem_singleton] at hq'
          subst hq'
          exact hw ▸ hp
      · exact hacc w ps (List.mem_cons_of_mem _ hmem') q hq
    · simp only [addToGroup, if_neg hw] at hmem
      rcases List.mem_cons.mp hmem with heq | hmem'
      · rw [Prod.mk.injEq] at heq
        obtain ⟨rfl, rfl⟩ := heq
        exact hacc w ps (List.mem_cons_self _ _) q hq
      · exact ih v p (fun w' ps' hm => hacc w' ps' (List.mem_cons_of_mem _ hm))
          hp w ps hmem' q hq

theorem snapshot_fold_val (s : BoardState) (l : List Pos) :
    ∀ acc, (∀ w ps, (w, ps) ∈ acc → ∀ q ∈ ps, s.cards q = some w) →
      ∀ w ps, (w, ps) ∈ l.foldl (snapshotStep s) acc → ∀ q ∈ ps,
        s.cards q = some w := by
  induction l with
  | nil => intro acc h; exact h
  | cons p l ih =>
    intro acc hacc
    rw [List.foldl_cons]
    apply ih
    unfold snapshotStep
    cases hc : s.cards p with
    | none => exact hacc
    | some v => exact addToGroup_val acc v p hacc hc

/-- Every position listed in a snapshot group bore that group's value at
snapshot time. -/
theorem snapshotGroups_val (s : BoardState) :
    ∀ w ps, (w, ps) ∈ snapshotGroups s → ∀ q ∈ ps, s.cards q = some w :=
  snapshot_fold_val s (allPositions s) []
    (fun w ps h => by cases h)

theorem addToGroup_keys :
    ∀ (acc : List (String × List Pos)) (v : String) (p : Pos),
      (addToGroup acc v p).map Prod.fst =
        if v ∈ acc.map Prod.fst then acc.map Prod.fst
        else acc.map Prod.fst ++ [v] := by
  intro acc
  induction acc with
  | nil => intro v p; simp [addToGroup]
  | cons hd tl ih =>
    intro v p
    obtain ⟨w0, ps0⟩ := hd
    by_cases hw : w0 = v
    · subst hw
      simp [addToGroup]
    · simp only [addToGroup, if_neg hw, List.map_cons, ih v p]
      by_cases hv : v ∈ tl.map Prod.fst
      · rw [if_pos hv, if_pos (List.mem_cons_of_mem _ hv)]
      · rw [if_neg hv, if_neg ?_]
        · rfl
        · intro hmem
          rcases List.mem_cons.mp hmem with h' | h'
          · exact hw h'.symm
          · exact hv h'

theorem addToGroup_keys_nodup (acc : List (String × List Pos)) (v : String)
    (p : Pos) (h : (acc.map Prod.fst).Nodup) :
    ((addToGroup acc v p).map Prod.fst).Nodup := by
  rw [addToGroup_keys]
  split
  · exact h
  · rename_i hv
    simp [List.nodup_append, h, hv]

theorem snapshot_fold_nodup (s : BoardState) (l : List Pos) :
    ∀ acc, (acc.map Prod.fst).Nodup →
      ((l.foldl (snapshotStep s) acc).map Prod.fst).Nodup := by
  induction l with
  | nil => intro acc h; exact h
  | cons p l ih =>
    intro acc hacc
    rw [List.foldl_cons]
    apply ih
    unfold snapshotStep
    cases hc : s.cards p with
    | none => exact hacc
    | some v => exact addToGroup_keys_nodup acc v p hacc

/-- The snapshot groups carry pairwise distinct values. -/
theorem snapshotGroups_keys_nodup (s : BoardState) :
    ((snapshotGroups s).map Prod.fst).Nodup :=
  snapshot_fold_nodup s (allPositions s) [] List.nodup_nil

theorem addToGroup_mem_extend :
    ∀ (acc : List (String × List Pos)) (vIns : String) (p : Pos)
      (w : String) (ps : List Pos), (w, ps) ∈ acc →
      ∃ ps', (w, ps') ∈ addToGroup acc vIns p ∧ ∀ x ∈ ps, x ∈ ps' := by
  intro acc
  induction acc with
  | nil => intro vIns p w ps h; cases h
  | cons hd tl ih =>
    intro vIns p w ps h
    obtain ⟨w0, ps0⟩ := hd
    by_cases hw : w0 = vIns
    · rcases List.mem_cons.mp h with heq | htl
      · rw [Prod.mk.injEq] at heq
        obtain ⟨rfl, rfl⟩ := heq
        refine ⟨ps ++ [p], ?_, fun x hx => List.mem_append_left _ hx⟩
        simp only [addToGroup, if_pos hw]
        exact List.mem_cons_self _ _
      · refine ⟨ps, ?_, fun x hx => hx⟩
        simp only [addToGroup, if_pos hw]
        exact List.mem_cons_of_mem _ htl
    · rcases List.mem_cons.mp h with heq | htl
      · rw [Prod.mk.injEq] at heq
        obtain ⟨rfl, rfl⟩ := heq
        refine ⟨ps, ?_, fun x hx => hx⟩
        simp only [addToGroup, if_neg hw]
        exact List.mem_cons_self _ _
      · obtain ⟨ps', hmem', hsub⟩ := ih vIns p w ps htl
        refine ⟨ps', ?_, hsub⟩
        simp only [addToGroup, if_neg hw]
        exact List.mem_cons_of_mem _ hmem'

theorem addToGroup_self_mem :
    ∀ (acc : List (String × List Pos)) (v : String) (p : Pos),
      ∃ ps, (v, ps) ∈ addToGroup acc v p ∧ p ∈ ps := by
  intro acc
  induction acc with
  | nil =>
    intro v p
    exact ⟨[p], List.mem_singleton_self _, List.mem_singleton_self p⟩
  | cons hd tl ih =>
    intro v p
    obtain ⟨w0, ps0⟩ := hd
    by_cases hw : w0 = v
    · subst hw
      refine ⟨ps0 ++ [p], ?_, List.mem_append_right _ (List.mem_singleton_self p)⟩
      simp only [addToGroup, if_pos rfl]
      exact List.mem_cons_self _ _
    · obtain ⟨ps, hm, hp⟩ := ih v p
      refine ⟨ps, ?_, hp⟩
      simp only [addToGroup, if_neg hw]
      exact List.mem_cons_of_mem _ hm

theorem snapshot_fold_complete (s : BoardState) (l : List Pos) :
    ∀ (acc : List (String × List Pos)) (q : Pos) (v : String),
      ((q ∈ l ∧ s.cards q = some v) ∨ (∃ ps, (v, ps) ∈ acc ∧ q ∈ ps)) →
      ∃ ps, (v, ps) ∈ l.foldl (snapshotStep s) acc ∧ q ∈ ps := by
  induction l with
  | nil =>
    intro acc q v h
    rcases h with ⟨hmem, _⟩ | h
    · cases hmem
    · exact h
  | cons p l ih =>
    intro acc q v h
    rw [List.foldl_cons]
    apply ih
    rcases h with ⟨hmem, hv⟩ | ⟨ps, hmem, hq⟩
    · rcases List.mem_cons.mp hmem with rfl | hmem'
      · right
        unfold snapshotStep
        rw [hv]
        exact addToGroup_self_mem acc v q
      · exact Or.inl ⟨hmem', hv⟩
    · right
      unfold snapshotStep
      cases hc : s.cards p with
      | none => exact ⟨ps, hmem, hq⟩
      | some w =>
        obtain ⟨ps', hmem', hsub⟩ := addToGroup_mem_extend acc w p v ps hmem
        exact ⟨ps', hmem', hsub q hq⟩

theorem mem_allPositions (s : BoardState) (q : Pos) (h1 : q.1 < s.rows)
    (h2 : q.2 < s.columns) : q ∈ allPositions s := by
  unfold allPositions
  rw [List.mem_flatMap]
  exact ⟨q.1, List.mem_range.mpr h1,
    List.mem_map.mpr ⟨q.2, List.mem_range.mpr h2, Prod.mk.eta⟩⟩

/-- Every in-bounds occupied position appears in the snapshot group of
its value. -/
theorem snapshotGroups_complete (s : BoardState) (q : Pos) (v : String)
    (h1 : q.1 < s.rows) (h2 : q.2 < s.columns) (hv : s.cards q = some v) :
    ∃ ps, (v, ps) ∈ snapshotGroups s ∧ q ∈ ps :=
  snapshot_fold_complete s (allPositions s) [] q v
    (Or.inl ⟨mem_allPositions s q h1 h2, hv⟩)

theorem assoc_unique :
    ∀ (gs : List (String × List Pos)) (v : String) (ps1 ps2 : List Pos),
      (gs.map Prod.fst).Nodup → (v, ps1) ∈ gs → (v, ps2) ∈ gs → ps1 = ps2 := by
  intro gs
  induction gs with
  | nil => intro v ps1 ps2 _ h; cases h
  | cons hd tl ih =>
    intro v ps1 ps2 hnd h1 h2
    obtain ⟨w0, ps0⟩ := hd
    rw [List.map_cons, List.nodup_cons] at hnd
    rcases List.mem_cons.mp h1 with e1 | m1
    · rw [Prod.mk.injEq] at e1
      obtain ⟨rfl, rfl⟩ := e1
      rcases List.mem_cons.mp h2 with e2 | m2
      · rw [Prod.mk.injEq] at e2
        exact e2.2.symm
      · exact absurd (List.mem_map.mpr ⟨(v, ps2), m2, rfl⟩) hnd.1
    · rcases List.mem_cons.mp h2 with e2 | m2
      · rw [Prod.mk.injEq] at e2
        obtain ⟨rfl, rfl⟩ := e2
        exact absurd (List.mem_map.mpr ⟨(v, ps1), m1, rfl⟩) hnd.1
      · exact ih v ps1 ps2 hnd.2 m1 m2

/-- The per-cell invariant of a running `map_cards(f)` call: a cell that
held `v` at snapshot time holds `v` (or is removed) while the `v` group
is still unprocessed, and holds `f v` (or is removed) afterwards; the
remaining groups are always a suffix of the snapshot and the dimensions
never change. -/
theorem mapRun_cell_inv (f : String → String) (s0 : BoardState) (A : Pos)
    (v : String) (hA1 : A.1 < s0.rows) (hA2 : A.2 < s0.columns)
    (hAv : s0.cards A = some v) :
    ∀ st : BoardState × List (String × List Pos),
      Relation.ReflTransGen (MapRunStep f) (s0, snapshotGroups s0) st →
      st.1.rows = s0.rows ∧ st.1.columns = s0.columns ∧
      st.2 <:+ snapshotGroups s0 ∧
      (((∃ ps, (v, ps) ∈ st.2) ∧
          (st.1.cards A = some v ∨ st.1.cards A = none)) ∨
        ((¬ ∃ ps, (v, ps) ∈ st.2) ∧
          (st.1.cards A = some (f v) ∨ st.1.cards A = none))) := by
  intro st hrun
  induction hrun with
  | refl =>
    refine ⟨rfl, rfl, List.suffix_refl _, Or.inl ⟨?_, Or.inl hAv⟩⟩
    obtain ⟨ps, hm, _⟩ := snapshotGroups_complete s0 A v hA1 hA2 hAv
    exact ⟨ps, hm⟩
  | tail hsteps hstep ih =>
    obtain ⟨d1, d2, hsuf, hinv⟩ := ih
    cases hstep with
    | flipStep player row col b gs =>
      obtain ⟨⟨e1, e2⟩, hdecr⟩ := flip_effect player row col b
      refine ⟨e1.trans d1, e2.trans d2, hsuf, ?_⟩
      rcases hinv with ⟨hps, hA⟩ | ⟨hps, hA⟩
      · refine Or.inl ⟨hps, ?_⟩
        rcases hdecr A with he | he
        · rw [he]; exact hA
        · exact Or.inr he
      · refine Or.inr ⟨hps, ?_⟩
        rcases hdecr A with he | he
        · rw [he]; exact hA
        · exact Or.inr he
    | watchStep b gs =>
      exact ⟨d1, d2, hsuf, hinv⟩
    | groupStep b g gs =>
      obtain ⟨w, psw⟩ := g
      have hgmem : (w, psw) ∈ snapshotGroups s0 :=
        hsuf.sublist.subset (List.mem_cons_self _ _)
      have hd : SameNonCards b (processGroup f b (w, psw)) :=
        processGroup_sameNonCards f b (w, psw)
      have hnewsuf : gs <:+ snapshotGroups s0 :=
        (List.suffix_cons (w, psw) gs).trans hsuf
      refine ⟨hd.1.trans d1, hd.2.1.trans d2, hnewsuf, ?_⟩
      by_cases hwv : w = v
      · subst hwv
        rcases hinv with ⟨_, hA⟩ | ⟨hps, _⟩
        · refine Or.inr ⟨?_, ?_⟩
          · have hnd : (((w, psw) :: gs).map Prod.fst).Nodup :=
              (snapshotGroups_keys_nodup s0).sublist (hsuf.map Prod.fst).sublist
            rw [List.map_cons, List.nodup_cons] at hnd
            rintro ⟨ps, hm⟩
            exact hnd.1 (List.mem_map.mpr ⟨(w, ps), hm, rfl⟩)
          · rcases hA with hA | hA
            · obtain ⟨psA, hmA, hApos⟩ :=
                snapshotGroups_complete s0 A w hA1 hA2 hAv
              have hps_eq : psA = psw := assoc_unique (snapshotGroups s0) w psA
                psw (snapshotGroups_keys_nodup s0) hmA hgmem
              subst hps_eq
              exact Or.inl (processGroup_cards_mem f b w psA A
                (by rw [d1]; exact hA1) (by rw [d2]; exact hA2) hApos hA)
            · exact Or.inr (processGroup_cards_none f b (w, psw) A hA)
        · exact absurd ⟨psw, List.mem_cons_self _ _⟩ hps
      · have hnotmem : A ∉ psw := by
          intro hmem
          have hval := snapshotGroups_val s0 w psw hgmem A hmem
          rw [hAv] at hval
          exact hwv (Option.some_injective _ hval).symm
        have hunch : (processGroup f b (w, psw)).cards A = b.cards A :=
          processGroup_cards_not_mem f b (w, psw) A hnotmem
        rcases hinv with ⟨⟨ps, hm⟩, hA⟩ | ⟨hps, hA⟩
        · refine Or.inl ⟨⟨ps, ?_⟩, by rw [hunch]; exact hA⟩
          rcases List.mem_cons.mp hm with heq | hm'
          · rw [Prod.mk.injEq] at heq
            exact absurd heq.1.symm hwv
          · exact hm'
        · refine Or.inr ⟨?_, by rw [hunch]; exact hA⟩
          rintro ⟨ps, hm⟩
          exact hps ⟨ps, List.mem_cons_of_mem _ hm⟩

/-! ## Claim C1 -/

/-- C1 (confirmed): pairwise consistency of `map`.  Start a
`map_cards(f)` call on board `s0` (its snapshot taken), and interleave
its per-value write-backs arbitrarily with concurrent flip attempts and
watch registrations.  If cells `A` and `B` held equal values when the
call began, then at every observable point of the run they hold equal
values whenever both are still on the board — a concurrent flip can
remove one of them, in which case the remaining one still holds either
the original value or `f` of it, never a mixture. -/
theorem map_pairwise_consistency (f : String → String) (s0 b : BoardState)
    (gs : List (String × List Pos))
    (hrun : Relation.ReflTransGen (MapRunStep f)
      (s0, snapshotGroups s0) (b, gs))
    (A B : Pos) (v : String)
    (hA1 : A.1 < s0.rows) (hA2 : A.2 < s0.columns)
    (hB1 : B.1 < s0.rows) (hB2 : B.2 < s0.columns)
    (hAv : s0.cards A = some v) (hBv : s0.cards B = some v) :
    (b.cards A ≠ none → b.cards B ≠ none → b.cards A = b.cards B) ∧
    (b.cards A = some v ∨ b.cards A = some (f v) ∨ b.cards A = none) ∧
    (b.cards B = some v ∨ b.cards B = some (f v) ∨ b.cards B = none) := by
  obtain ⟨_, _, _, hinvA⟩ := mapRun_cell_inv f s0 A v hA1 hA2 hAv (b, gs) hrun
  obtain ⟨_, _, _, hinvB⟩ := mapRun_cell_inv f s0 B v hB1 hB2 hBv (b, gs) hrun
  constructor
  · intro hA hB
    rcases hinvA with ⟨hps, hA'⟩ | ⟨hps, hA'⟩
    · rcases hinvB with ⟨_, hB'⟩ | ⟨hps', _⟩
      · rcases hA' with hA' | hA'
        · rcases hB' with hB' | hB'
          · rw [hA', hB']
          · exact absurd hB' hB
        · exact absurd hA' hA
      · exact absurd hps hps'
    · rcases hinvB with ⟨hps', _⟩ | ⟨_, hB'⟩
      · exact absurd hps' hps
      · rcases hA' with hA' | hA'
        · rcases hB' with hB' | hB'
          · rw [hA', hB']
          · exact absurd hB' hB
        · exact absurd hA' hA
  · constructor
    · rcases hinvA with ⟨_, hA'⟩ | ⟨_, hA'⟩
      · rcases hA' with hA' | hA'
        · exact Or.inl hA'
        · exact Or.inr (Or.inr hA')
      · rcases hA' with hA' | hA'
        · exact Or.inr (Or.inl hA')
        · exact Or.inr (Or.inr hA')
    · rcases hinvB with ⟨_, hB'⟩ | ⟨_, hB'⟩
      · rcases hB' with hB' | hB'
        · exact Or.inl hB'
        · exact Or.inr (Or.inr hB')
      · rcases hB' with hB' | hB'
        · exact Or.inr (Or.inl hB')
        · exact Or.inr (Or.inr hB')

/-- Witness for C1: on the fresh 1×2 all-`A` board, run the map call's
single group write-back (for `f` sending every value to `X`) as one
interleaved step; the two matching cells still match. -/
theorem map_pairwise_consistency_witness :
    (processGroup (fun _ => "X") sampleBoard
        ("A", [(0, 0), (0, 1)])).cards (0, 0) =
      (processGroup (fun _ => "X") sampleBoard
        ("A", [(0, 0), (0, 1)])).cards (0, 1) := by
  have hsnap : snapshotGroups sampleBoard = [("A", [(0, 0), (0, 1)])] := by
    decide
  have h := map_pairwise_consistency (fun _ => "X") sampleBoard
    (processGroup (fun _ => "X") sampleBoard ("A", [(0, 0), (0, 1)])) []
    (by
      rw [show (sampleBoard, snapshotGroups sampleBoard) =
          (sampleBoard, [(("A" : String), [((0 : Nat), (0 : Nat)),
            ((0 : Nat), (1 : Nat))])]) from by rw [hsnap]]
      exact Relation.ReflTransGen.single
        (MapRunStep.groupStep sampleBoard ("A", [(0, 0), (0, 1)]) []))
    (0, 0) (0, 1) "A" (by decide) (by decide) (by decide) (by decide)
    (by decide) (by decide)
  exact h.1 (by decide) (by decide)

/-! ## Claim C9 -/

/-- Whether a constructor run succeeded. -/
def initSucceeds (e : Except String BoardState) : Bool :=
  match e with
  | .ok _ => true
  | .error _ => false

/-- C9 counterexample: the constructor accepts a card consisting of one
whitespace character, and an empty-string card, although the claim says
construction must then fail with the malformed-board error. -/
theorem construction_accepts_invalid_cards :
    initSucceeds (boardInit 1 1 [[" "]]) = true ∧
    (" ").toList.all (fun ch => ch.isWhitespace) = true ∧
    initSucceeds (boardInit 1 1 [[""]]) = true ∧
    ("").toList = [] := by
  refine ⟨by decide, by decide, by decide, rfl⟩

/-- C9 (corrected): the constructor succeeds exactly when the dimensions
are positive, the row count matches, and every row has the stated column
count; card values are not examined (`Board.__init__` validates card
content nowhere — only the out-of-scope file parser does). -/
theorem boardInit_ok_iff (rows columns : Int) (cards : List (List String)) :
    initSucceeds (boardInit rows columns cards) = true ↔
      (0 < rows ∧ 0 < columns ∧ (cards.length : Int) = rows ∧
        ∀ row ∈ cards, (row.length : Int) = columns) := by
  unfold boardInit
  split_ifs with h1 h2 h3
  · exact iff_of_false (by simp [initSucceeds])
      (fun ⟨hr, hc, _, _⟩ => by rcases h1 with h | h <;> omega)
  · exact iff_of_false (by simp [initSucceeds])
      (fun ⟨_, _, hlen, _⟩ => h2 hlen)
  · refine iff_of_false (by simp [initSucceeds]) (fun ⟨_, _, _, hall⟩ => ?_)
    rw [List.any_eq_true] at h3
    obtain ⟨row, hmem, hrow⟩ := h3
    rw [decide_eq_true_eq] at hrow
    exact hrow (hall row hmem)
  · refine iff_of_true (by simp [initSucceeds]) ?_
    push_neg at h1
    refine ⟨by omega, by omega, not_ne_iff.mp h2, ?_⟩
    intro row hmem
    by_contra hne
    exact h3 (List.any_eq_true.mpr ⟨row, hmem, decide_eq_true hne⟩)

/-- Witness for C9's amended claim: a 1×1 board with card `A` is
accepted. -/
theorem boardInit_ok_iff_witness :
    initSucceeds (boardInit 1 1 [["A"]]) = true :=
  (boardInit_ok_iff 1 1 [["A"]]).mpr
    ⟨by decide, by decide, by decide, by decide⟩

end MemoryScramble
